import Mathlib

/-!
Verification development for the EK-SMS school-registration workflow.

The definitions below are a shallow embedding of the Python modules
`app/modules/school_applications/{models,repository,service,jobs}.py`,
`app/modules/schools/repository.py` and `app/modules/users/repository.py`.
Times are integers (seconds); `datetime.now(UTC)` becomes an explicit `now`
parameter. Token strings are modelled symbolically: `TokenStr.raw n` is a
fresh random token from `secrets.token_urlsafe` and `TokenStr.hashed s` is
the SHA-256 hex digest of `s` (the digest is treated as a free constructor,
i.e. collision-free and never equal to any raw token). The relational store
is a record of lists; SQLAlchemy row mutation followed by `commit` becomes a
functional update keyed by primary key (or by the unique `token` column).
-/

namespace EKSMS

/-- The fixed status enum of `models.ApplicationStatus`. -/
inductive ApplicationStatus
  | awaiting_applicant_verification
  | awaiting_principal_confirmation
  | pending_review
  | under_review
  | more_info_requested
  | approved
  | rejected
  | expired
deriving DecidableEq

/-- `models.TokenType`. -/
inductive TokenType
  | applicant_verification
  | principal_confirmation
deriving DecidableEq

/-- `models.AdminChoice`. -/
inductive AdminChoice
  | applicant
  | principal
deriving DecidableEq

/-- `models.SchoolType`. -/
inductive SchoolType
  | publicSchool
  | privateSchool
  | mission
  | university
  | vocational
deriving DecidableEq

/-- `models.StudentPopulation`. -/
inductive StudentPopulation
  | under_100
  | from_100_to_300
  | from_300_to_500
  | over_500
deriving DecidableEq

/-- `users.models.UserRole` (only the role used by approval matters here). -/
inductive UserRole
  | super_admin
  | school_admin
  | teacher
  | student
  | parentRole
  | exam_officer
deriving DecidableEq

/-- Symbolic token strings: `raw n` is a freshly generated URL-safe token,
`hashed s` is the SHA-256 hex digest of `s` (`service._hash_token`). -/
inductive TokenStr
  | raw (n : Nat)
  | hashed (s : TokenStr)
deriving DecidableEq

/-- `service._hash_token`: SHA-256 of the input string. -/
def hash_token : TokenStr → TokenStr := TokenStr.hashed

/-- One element of the `internal_notes` JSON array. -/
structure InternalNote where
  note : String
  created_by : Nat
  created_at : Int
deriving DecidableEq

/-- Row of `school_applications` (`models.SchoolApplication`); the JSON
columns `online_presence` / `reasons` / `other_reason` are data-only and
omitted. -/
structure SchoolApplication where
  id : Nat
  school_name : String
  year_established : Int
  school_type : SchoolType
  student_population : StudentPopulation
  country_code : String
  city : String
  address : String
  school_phone : Option String
  school_email : Option String
  principal_name : String
  principal_email : String
  principal_phone : String
  applicant_is_principal : Bool
  applicant_name : Option String
  applicant_email : Option String
  applicant_phone : Option String
  applicant_role : Option String
  admin_choice : Option AdminChoice
  status : ApplicationStatus
  submitted_at : Int
  applicant_verified_at : Option Int
  principal_confirmed_at : Option Int
  reviewed_at : Option Int
  reviewed_by : Option Nat
  decision_reason : Option String
  reminder_sent_at : Option Int
  internal_notes : Option (List InternalNote)
deriving DecidableEq

/-- Row of `verification_tokens` (`models.VerificationToken`). The `token`
column stores the SHA-256 digest, never the raw secret. -/
structure VerificationToken where
  id : Nat
  application_id : Nat
  token : TokenStr
  token_type : TokenType
  expires_at : Int
  used_at : Option Int
  created_at : Int
deriving DecidableEq

/-- Row of `schools` as populated by `SchoolRepository.create`. -/
structure School where
  id : Nat
  name : String
  year_established : Int
  school_type : SchoolType
  student_population : StudentPopulation
  country_code : String
  city : String
  address : String
  principal_name : String
  principal_email : String
  principal_phone : Option String
  phone : Option String
  email : Option String
  application_id : Option Nat
  is_active : Bool
deriving DecidableEq

/-- Row of `users` as populated by `UserRepository.create`. -/
structure User where
  id : Nat
  email : String
  password_hash : String
  first_name : String
  last_name : String
  role : UserRole
  school_id : Option Nat
  is_active : Bool
  is_verified : Bool
  must_change_password : Bool
deriving DecidableEq

/-- The relational store: the four tables the workflow touches. -/
structure Db where
  applications : List SchoolApplication
  tokens : List VerificationToken
  schools : List School
  users : List User
deriving DecidableEq

/-- Errors of the repository and service layers (`ApplicationServiceError`
subclasses, `InvalidStatusTransitionError`, the repository `ValueError`s and
a database unique-constraint violation, which no layer translates). -/
inductive AppError
  | applicationNotFound
  | invalidStatusTransition (current target : ApplicationStatus)
      (allowed : List ApplicationStatus)
  | tokenNotFound
  | duplicateApplication
  | invalidToken
  | tokenExpired
  | tokenAlreadyUsed
  | invalidApplicationState
  | invalidEmail
  | alreadyVerified
  | rateLimitExceeded (retry_after_seconds : Int)
  | serviceUnavailable
  | cannotReviewApplication
  | cannotDecideApplication
  | schoolProvisioning
  | integrityViolation
deriving DecidableEq

/-! ## Repository: applications -/

/-- `repository.get_by_id` (primary-key lookup). -/
def get_by_id (db : Db) (i : Nat) : Option SchoolApplication :=
  db.applications.find? (fun a => decide (a.id = i))

/-- Functional update of the application row whose primary key matches
`a2.id` (SQLAlchemy mutates the fetched row in place; `id` is unique). -/
def replaceApp (l : List SchoolApplication) (a2 : SchoolApplication) :
    List SchoolApplication :=
  l.map (fun x => if x.id = a2.id then a2 else x)

/-- Commit of a mutated application row. -/
def setApplication (db : Db) (a2 : SchoolApplication) : Db :=
  { db with applications := replaceApp db.applications a2 }

/-- `repository.VALID_STATUS_TRANSITIONS`: the transition table; terminal
states have no outgoing edges. -/
def VALID_STATUS_TRANSITIONS : ApplicationStatus → List ApplicationStatus
  | .awaiting_applicant_verification =>
      [.awaiting_principal_confirmation, .pending_review, .expired]
  | .awaiting_principal_confirmation => [.pending_review, .expired]
  | .pending_review => [.under_review, .approved, .rejected]
  | .under_review => [.more_info_requested, .approved, .rejected]
  | .more_info_requested => [.under_review, .expired, .rejected]
  | .approved => []
  | .rejected => []
  | .expired => []

/-- The keyword arguments that call sites of `repository.update_status` pass
(`none` means the keyword was not supplied). -/
structure UpdateFields where
  applicant_verified_at : Option Int
  principal_confirmed_at : Option Int
  reviewed_at : Option Int
  reviewed_by : Option Nat
  decision_reason : Option String
deriving DecidableEq

/-- No extra keyword arguments. -/
def noExtra : UpdateFields := ⟨none, none, none, none, none⟩

/-- Merge one optional keyword into an optional column. -/
def mergeField {α : Type} (kw old : Option α) : Option α :=
  match kw with
  | some v => some v
  | none => old

/-- Apply the supplied keyword arguments to the row (`setattr` loop in
`repository.update_status`). -/
def applyUpdates (u : UpdateFields) (a : SchoolApplication) : SchoolApplication :=
  { a with
    applicant_verified_at := mergeField u.applicant_verified_at a.applicant_verified_at
    principal_confirmed_at := mergeField u.principal_confirmed_at a.principal_confirmed_at
    reviewed_at := mergeField u.reviewed_at a.reviewed_at
    reviewed_by := mergeField u.reviewed_by a.reviewed_by
    decision_reason := mergeField u.decision_reason a.decision_reason }

/-- `repository.update_status`: look up the row, validate the transition
against the table (a target equal to the current status bypasses the check),
then write the status plus the extra fields. -/
def update_status (db : Db) (i : Nat) (status : ApplicationStatus)
    (extra : UpdateFields) : Except AppError (Db × SchoolApplication) :=
  match get_by_id db i with
  | none => .error .applicationNotFound
  | some application =>
    let current_status := application.status
    let valid_transitions := VALID_STATUS_TRANSITIONS current_status
    if status ≠ current_status ∧ status ∉ valid_transitions then
      .error (.invalidStatusTransition current_status status valid_transitions)
    else
      let a2 := applyUpdates extra { application with status := status }
      .ok (setApplication db a2, a2)

/-! ## Repository: verification tokens -/

/-- `repository.get_by_token` (lookup by the unique `token` column). -/
def get_by_token (db : Db) (tok : TokenStr) : Option VerificationToken :=
  db.tokens.find? (fun t => decide (t.token = tok))

/-- Functional update of the token row whose unique `token` column equals
`tok`. -/
def replaceTok (l : List VerificationToken) (tok : TokenStr)
    (t2 : VerificationToken) : List VerificationToken :=
  l.map (fun x => if x.token = tok then t2 else x)

/-- `repository.mark_token_used`: look up by token string and stamp
`used_at = now`; no guard against the token being used already. -/
def mark_token_used (db : Db) (tok : TokenStr) (now : Int) :
    Except AppError (Db × VerificationToken) :=
  match get_by_token db tok with
  | none => .error .tokenNotFound
  | some verification_token =>
    let t2 := { verification_token with used_at := some now }
    .ok ({ db with tokens := replaceTok db.tokens tok t2 }, t2)

/-- `repository.create_token`. -/
def create_token (db : Db) (tokId appId : Nat) (tok : TokenStr)
    (token_type : TokenType) (expires_at created_at : Int) :
    Db × VerificationToken :=
  let t : VerificationToken := ⟨tokId, appId, tok, token_type, expires_at, none, created_at⟩
  ({ db with tokens := db.tokens ++ [t] }, t)

/-- `repository.delete_tokens_for_application` (with a type filter). -/
def delete_tokens_for_application (db : Db) (appId : Nat)
    (token_type : Option TokenType) : Db :=
  { db with tokens := db.tokens.filter (fun t =>
      !(decide (t.application_id = appId) &&
        (match token_type with
         | some ty => decide (t.token_type = ty)
         | none => true))) }

/-! ## Repository: duplicate-detection and job queries -/

/-- The five non-terminal statuses (`pending_statuses` in the repository and
service duplicate checks). -/
def pending_statuses : List ApplicationStatus :=
  [.awaiting_applicant_verification, .awaiting_principal_confirmation,
   .pending_review, .under_review, .more_info_requested]

/-- The terminal statuses. -/
def terminal_statuses : List ApplicationStatus := [.approved, .rejected, .expired]

/-- `repository.get_by_applicant_email`: rows whose `applicant_email`
matches, or whose applicant is the principal and `principal_email`
matches (exact string comparison, as in the SQL). -/
def get_by_applicant_email (db : Db) (email : String) : List SchoolApplication :=
  db.applications.filter (fun a =>
    decide (a.applicant_email = some email) ||
    (a.applicant_is_principal && decide (a.principal_email = email)))

/-- `repository.get_pending_by_school_and_city`: first row with exactly the
given school name and city (case-sensitive equality in the SQL) in a
non-terminal status. -/
def get_pending_by_school_and_city (db : Db) (name city : String) :
    Option SchoolApplication :=
  db.applications.find? (fun a =>
    decide (a.school_name = name) && decide (a.city = city) &&
    decide (a.status ∈ pending_statuses))

/-- `repository.get_expired_unverified`: applications still awaiting
applicant verification submitted before the cutoff. -/
def get_expired_unverified (db : Db) (before_datetime : Int) :
    List SchoolApplication :=
  db.applications.filter (fun a =>
    decide (a.status = .awaiting_applicant_verification) &&
    decide (a.submitted_at < before_datetime))

/-- `repository.get_applications_needing_reminder`: given status, submitted
before the cutoff, and no reminder sent yet. -/
def get_applications_needing_reminder (db : Db) (submitted_before : Int)
    (status : ApplicationStatus) : List SchoolApplication :=
  db.applications.filter (fun a =>
    decide (a.status = status) &&
    decide (a.submitted_at < submitted_before) &&
    decide (a.reminder_sent_at = none))

/-- `repository.mark_reminder_sent`: stamp `reminder_sent_at`; a missing row
is a silent no-op (the Python returns `None`). -/
def mark_reminder_sent (db : Db) (appId : Nat) (sent_at : Int) : Db :=
  match get_by_id db appId with
  | none => db
  | some application =>
      setApplication db { application with reminder_sent_at := some sent_at }

/-- `repository.mark_application_expired` delegates to `update_status`. -/
def mark_application_expired (db : Db) (appId : Nat) :
    Except AppError (Db × SchoolApplication) :=
  update_status db appId .expired noExtra

/-- `repository.get_valid_token_for_application`: unused, unexpired token of
the given type for the application. -/
def get_valid_token_for_application (db : Db) (appId : Nat)
    (token_type : TokenType) (now : Int) : Option VerificationToken :=
  db.tokens.find? (fun t =>
    decide (t.application_id = appId) && decide (t.token_type = token_type) &&
    decide (t.used_at = none) && decide (now < t.expires_at))

/-- The SQL join of applications with their verification tokens. -/
def joinTokens (db : Db) : List (SchoolApplication × VerificationToken) :=
  db.applications.flatMap (fun a =>
    (db.tokens.filter (fun t => decide (t.application_id = a.id))).map (fun t => (a, t)))

/-- `repository.get_principal_tokens_needing_reminder`: joined rows in
AWAITING_PRINCIPAL_CONFIRMATION with no reminder sent, whose unused,
unexpired principal token was created before the cutoff. -/
def get_principal_tokens_needing_reminder (db : Db) (created_before now : Int) :
    List (SchoolApplication × VerificationToken) :=
  (joinTokens db).filter (fun p =>
    decide (p.1.status = .awaiting_principal_confirmation) &&
    decide (p.1.reminder_sent_at = none) &&
    decide (p.2.token_type = .principal_confirmation) &&
    decide (p.2.created_at < created_before) &&
    decide (p.2.used_at = none) &&
    decide (now < p.2.expires_at))

/-- `repository.get_principal_tokens_to_expire`: joined rows in
AWAITING_PRINCIPAL_CONFIRMATION whose unused principal token was created
before the cutoff (no filter on the submission time of the application). -/
def get_principal_tokens_to_expire (db : Db) (created_before : Int) :
    List (SchoolApplication × VerificationToken) :=
  (joinTokens db).filter (fun p =>
    decide (p.1.status = .awaiting_principal_confirmation) &&
    decide (p.2.token_type = .principal_confirmation) &&
    decide (p.2.created_at < created_before) &&
    decide (p.2.used_at = none))

/-- `repository.add_internal_note`: append a note object to the JSON array
(initialising it when NULL); `none` models the `ValueError` on a missing
application. -/
def add_internal_note (db : Db) (appId : Nat) (note : String)
    (created_by : Nat) (now : Int) : Option Db :=
  match get_by_id db appId with
  | none => none
  | some application =>
    let new_note : InternalNote := ⟨note, created_by, now⟩
    some (setApplication db
      { application with
        internal_notes := some ((application.internal_notes.getD []) ++ [new_note]) })

/-! ## Repository: schools and users -/

/-- `UserRepository.get_by_email`. -/
def user_get_by_email (db : Db) (email : String) : Option User :=
  db.users.find? (fun u => decide (u.email = email))

/-- `SchoolRepository.create` invoked from `admin_approve_application`,
snapshotting the application fields (a flush, not a commit). -/
def school_from_application (schoolId : Nat) (a : SchoolApplication) : School :=
  ⟨schoolId, a.school_name, a.year_established, a.school_type,
   a.student_population, a.country_code, a.city, a.address,
   a.principal_name, a.principal_email, some a.principal_phone,
   a.school_phone, a.school_email, some a.id, true⟩

/-- `UserRepository.create` invoked from `admin_approve_application`
(a flush, not a commit). -/
def admin_user_record (userId : Nat) (email password_hash first_name last_name : String)
    (schoolId : Nat) : User :=
  ⟨userId, email, password_hash, first_name, last_name,
   UserRole.school_admin, some schoolId, true, true, true⟩

/-! ## Service layer: helpers, token validation, verification flows -/

/-- Seconds in 72 hours (`TOKEN_EXPIRY_HOURS`). -/
def TOKEN_EXPIRY_SECONDS : Int := 72 * 3600

/-- Python `str.lower()` and SQL `LOWER()` (an executable per-character
lowercasing; `String.toLower` itself does not reduce in the kernel). -/
def lowerStr (s : String) : String := ⟨s.data.map Char.toLower⟩

/-- `helpers.get_effective_applicant_email_from_model`. -/
def effective_applicant_email (a : SchoolApplication) : String :=
  if a.applicant_is_principal then a.principal_email
  else a.applicant_email.getD a.principal_email

/-- `service._validate_token`: hash the presented string, look the digest up,
then check type, single-use, expiry, and resolve the owning application. -/
def validate_token (db : Db) (now : Int) (token_string : TokenStr)
    (expected_type : TokenType) :
    Except AppError (VerificationToken × SchoolApplication) :=
  let token_hash := hash_token token_string
  match get_by_token db token_hash with
  | none => .error .invalidToken
  | some verification_token =>
    if verification_token.token_type ≠ expected_type then .error .invalidToken
    else if verification_token.used_at.isSome then .error .tokenAlreadyUsed
    else if verification_token.expires_at < now then .error .tokenExpired
    else
      match get_by_id db verification_token.application_id with
      | none => .error .applicationNotFound
      | some application => .ok (verification_token, application)

/-- The validate-then-mark sequence every consuming workflow operation
performs (`_validate_token` followed by `mark_token_used`, as in
`verify_applicant` and `confirm_principal`). -/
def consume_token (db : Db) (now : Int) (token_string : TokenStr)
    (expected_type : TokenType) : Db × Except AppError VerificationToken :=
  match validate_token db now token_string expected_type with
  | .error e => (db, .error e)
  | .ok _ =>
    match mark_token_used db (hash_token token_string) now with
    | .error e => (db, .error e)
    | .ok (db1, t) => (db1, .ok t)

/-- The at-sign separator used by `_mask_email`. -/
def atString : String := "@"

/-- The empty string. -/
def emptyString : String := ""

/-- Mask for a local part of length at most one. -/
def starString : String := "*"

/-- Mask used when the input has no at-sign, and the masking suffix. -/
def maskedStars : String := "***"

/-- `service._mask_email`. -/
def mask_email (email : String) : String :=
  if email.contains '@' = false then maskedStars
  else
    let parts := email.splitOn atString
    let localPart := parts.headD emptyString
    let domain := atString.intercalate parts.tail
    let masked :=
      if localPart.length ≤ 1 then starString
      else localPart.take 1 ++ maskedStars
    masked ++ atString ++ domain

/-- Response of `verify_applicant` (the fields the spec talks about). -/
structure VerifyResult where
  id : Nat
  status : ApplicationStatus
  requires_principal_confirmation : Bool
  principal_email_hint : Option String
deriving DecidableEq

/-- `service.verify_applicant`: validate and consume an applicant token;
when the applicant is the principal, go straight to PENDING_REVIEW stamping
both timestamps with the same `now`; otherwise go to
AWAITING_PRINCIPAL_CONFIRMATION, stamp only `applicant_verified_at`, and
issue a fresh PRINCIPAL_CONFIRMATION token. Email delivery does not touch
the store. `newTokId` and `rawTok` stand for the fresh row id and the value
of `_generate_secure_token`. -/
def verify_applicant (db : Db) (now : Int) (token_string : TokenStr)
    (newTokId rawTok : Nat) : Db × Except AppError VerifyResult :=
  match validate_token db now token_string .applicant_verification with
  | .error e => (db, .error e)
  | .ok (_, application) =>
    if application.status ≠ .awaiting_applicant_verification then
      (db, .error .invalidApplicationState)
    else
      match mark_token_used db (hash_token token_string) now with
      | .error e => (db, .error e)
      | .ok (db1, _) =>
        if application.applicant_is_principal then
          match update_status db1 application.id .pending_review
              ⟨some now, some now, none, none, none⟩ with
          | .error e => (db1, .error e)
          | .ok (db2, _) =>
              (db2, .ok ⟨application.id, .pending_review, false, none⟩)
        else
          match update_status db1 application.id .awaiting_principal_confirmation
              ⟨some now, none, none, none, none⟩ with
          | .error e => (db1, .error e)
          | .ok (db2, _) =>
            let db3 := (create_token db2 newTokId application.id
              (hash_token (.raw rawTok)) .principal_confirmation
              (now + TOKEN_EXPIRY_SECONDS) now).1
            (db3, .ok ⟨application.id, .awaiting_principal_confirmation, true,
              some (mask_email application.principal_email)⟩)

/-- `service.confirm_principal`: validate and consume a principal token,
require AWAITING_PRINCIPAL_CONFIRMATION, transition to PENDING_REVIEW
stamping `principal_confirmed_at`. -/
def confirm_principal (db : Db) (now : Int) (token_string : TokenStr) :
    Db × Except AppError ApplicationStatus :=
  match validate_token db now token_string .principal_confirmation with
  | .error e => (db, .error e)
  | .ok (_, application) =>
    if application.status ≠ .awaiting_principal_confirmation then
      (db, .error .invalidApplicationState)
    else
      match mark_token_used db (hash_token token_string) now with
      | .error e => (db, .error e)
      | .ok (db1, _) =>
        match update_status db1 application.id .pending_review
            ⟨none, some now, none, none, none⟩ with
        | .error e => (db1, .error e)
        | .ok (db2, _) => (db2, .ok .pending_review)

/-! ## Service layer: submission and duplicate detection -/

/-- The payload of `schemas.SchoolApplicationCreate`, flattened (the schema
validates that `applicant_email` is present whenever the applicant is not
the principal). -/
structure SubmitData where
  school_name : String
  year_established : Int
  school_type : SchoolType
  student_population : StudentPopulation
  country_code : String
  city : String
  address : String
  school_phone : Option String
  school_email : Option String
  principal_name : String
  principal_email : String
  principal_phone : String
  applicant_is_principal : Bool
  applicant_name : Option String
  applicant_email : Option String
  applicant_phone : Option String
  applicant_role : Option String
  admin_choice : Option AdminChoice
deriving DecidableEq

/-- `helpers.get_effective_applicant_email_from_schema` (the schema
guarantees the fallback is never needed). -/
def effective_email_schema (d : SubmitData) : String :=
  if d.applicant_is_principal then d.principal_email
  else d.applicant_email.getD emptyString

/-- `service._check_duplicate_by_applicant_email`: fails when some
application returned by `get_by_applicant_email` has the same school name
and a non-terminal status. -/
def check_duplicate_by_applicant_email (db : Db) (applicant_email school_name : String) :
    Except AppError Unit :=
  if (get_by_applicant_email db applicant_email).any (fun a =>
      decide (a.school_name = school_name) && decide (a.status ∈ pending_statuses)) then
    .error .duplicateApplication
  else .ok ()

/-- `service._check_duplicate_by_school_and_city`. -/
def check_duplicate_by_school_and_city (db : Db) (school_name city : String) :
    Except AppError Unit :=
  if (get_pending_by_school_and_city db school_name city).isSome then
    .error .duplicateApplication
  else .ok ()

/-- `repository.create` plus the commit-time effect of the partial unique
index `ix_school_applications_unique_pending` on
(lower(school_name), lower(city)) restricted to non-terminal rows: the
insert fails with an untranslated integrity error when a non-terminal row
matches case-insensitively. -/
def repository_create (db : Db) (newId : Nat) (d : SubmitData) (now : Int) :
    Except AppError (Db × SchoolApplication) :=
  if db.applications.any (fun a =>
      decide (lowerStr a.school_name = lowerStr d.school_name) &&
      decide (lowerStr a.city = lowerStr d.city) &&
      decide (a.status ∈ pending_statuses)) then
    .error .integrityViolation
  else
    let a : SchoolApplication :=
      ⟨newId, d.school_name, d.year_established, d.school_type,
       d.student_population, d.country_code, d.city, d.address,
       d.school_phone, d.school_email, d.principal_name, d.principal_email,
       d.principal_phone, d.applicant_is_principal, d.applicant_name,
       d.applicant_email, d.applicant_phone, d.applicant_role, d.admin_choice,
       .awaiting_applicant_verification, now, none, none, none, none, none,
       none, none⟩
    .ok ({ db with applications := db.applications ++ [a] }, a)

/-- `service.submit_application`: both duplicate checks, then the insert
(which the database unique index can still reject), then the
APPLICANT_VERIFICATION token. `rawTok` is the fresh `_generate_secure_token`
value. -/
def submit_application (db : Db) (d : SubmitData) (now : Int)
    (newAppId newTokId rawTok : Nat) : Db × Except AppError Nat :=
  let applicant_email := effective_email_schema d
  let school_name := d.school_name
  match check_duplicate_by_applicant_email db applicant_email school_name with
  | .error e => (db, .error e)
  | .ok _ =>
    match check_duplicate_by_school_and_city db school_name d.city with
    | .error e => (db, .error e)
    | .ok _ =>
      match repository_create db newAppId d now with
      | .error e => (db, .error e)
      | .ok (db1, application) =>
        let db2 := (create_token db1 newTokId application.id
          (hash_token (.raw rawTok)) .applicant_verification
          (now + TOKEN_EXPIRY_SECONDS) now).1
        (db2, .ok application.id)

/-! ## Service layer: resend with rate limiting -/

/-- The Redis store seen by `_check_rate_limit`: each key holds a counter
and its absolute expiry time. -/
def RedisState : Type := String → Option (Nat × Int)

/-- Key base of the sliding-window counter. -/
def resendKeyBase : String := "resend_verification:"

/-- The per-application rate-limit key. -/
def rlKey (appId : Nat) : String := resendKeyBase ++ toString appId

/-- `redis.get`: a key past its expiry reads as absent. -/
def rget (r : RedisState) (now : Int) (k : String) : Option Nat :=
  match r k with
  | none => none
  | some (c, e) => if now < e then some c else none

/-- `redis.ttl` (only consulted on live keys). -/
def rttl (r : RedisState) (now : Int) (k : String) : Int :=
  match r k with
  | none => -2
  | some (_, e) => if now < e then e - now else -2

/-- The `INCR` + `EXPIRE` pipeline: bump the live counter (restarting an
expired one at zero) and reset the window to one hour from now. -/
def rincr_expire (r : RedisState) (now : Int) (k : String) : RedisState :=
  fun k2 => if k2 = k then some ((rget r now k).getD 0 + 1, now + 3600) else r k2

/-- `RESEND_RATE_LIMIT_MAX_REQUESTS`. -/
def RESEND_RATE_LIMIT_MAX_REQUESTS : Nat := 3

/-- `service._check_rate_limit`: reject with a retry-after of at least 60
seconds when the window already holds three requests, otherwise count this
one. -/
def check_rate_limit (r : RedisState) (now : Int) (appId : Nat) :
    RedisState × Except AppError Unit :=
  let rate_limit_key := rlKey appId
  match rget r now rate_limit_key with
  | some current_count =>
    if RESEND_RATE_LIMIT_MAX_REQUESTS ≤ current_count then
      (r, .error (.rateLimitExceeded (max (rttl r now rate_limit_key) 60)))
    else (rincr_expire r now rate_limit_key, .ok ())
  | none => (rincr_expire r now rate_limit_key, .ok ())

/-- Statuses from which a resend is allowed. -/
def valid_resend_statuses : List ApplicationStatus :=
  [.awaiting_applicant_verification, .awaiting_principal_confirmation]

/-- `service.resend_verification`: ownership and status checks, the
fail-closed Redis guard, the rate limit, then supersede-and-reissue of the
relevant token type. Returns the store, the Redis state and the outcome
(the new expiry on success). -/
def resend_verification (db : Db) (redis : Option RedisState) (appId : Nat)
    (email : String) (now : Int) (newTokId rawTok : Nat) :
    Db × Option RedisState × Except AppError Int :=
  match get_by_id db appId with
  | none => (db, redis, .error .applicationNotFound)
  | some application =>
    let effective_email := effective_applicant_email application
    if lowerStr email ≠ lowerStr effective_email then
      (db, redis, .error .invalidEmail)
    else if application.status ∉ valid_resend_statuses then
      (db, redis, .error .alreadyVerified)
    else
      match redis with
      | none => (db, redis, .error .serviceUnavailable)
      | some r =>
        match check_rate_limit r now appId with
        | (r1, .error e) => (db, some r1, .error e)
        | (r1, .ok _) =>
          let token_type :=
            if application.status = .awaiting_applicant_verification then
              TokenType.applicant_verification
            else TokenType.principal_confirmation
          let db1 := delete_tokens_for_application db appId (some token_type)
          let db2 := (create_token db1 newTokId appId
            (hash_token (.raw rawTok)) token_type
            (now + TOKEN_EXPIRY_SECONDS) now).1
          (db2, some r1, .ok (now + TOKEN_EXPIRY_SECONDS))

/-! ## Service layer: admin approval (transactional session model)

`admin_approve_application` runs school creation and admin-user creation as
flushes inside one open transaction and commits only inside the final
`update_status`; welcome-email delivery and the best-effort internal notes
of the exception handlers use `repository.add_internal_note`, which commits.
`Session` separates committed from flushed-but-uncommitted state; `aborted`
records that the transaction failed at the database level, in which case any
later commit attempt fails (and the suppressed note commit is a no-op). -/

/-- An open SQLAlchemy session. -/
structure Session where
  committed : Db
  pending : Db
  aborted : Bool

/-- Injected infrastructure failures for the three database steps of the
atomic unit, and for the welcome email. -/
structure ApproveOracle where
  school_flush_fails : Bool
  user_flush_fails : Bool
  commit_fails : Bool
  welcome_email_fails : Bool

/-- Statuses from which a decision may be made (`DECIDABLE_STATUSES`). -/
def DECIDABLE_STATUSES : List ApplicationStatus :=
  [.under_review, .more_info_requested, .pending_review]

/-- The designated-admin rule of `admin_approve_application`: the principal
when the applicant is the principal or chose the principal, else the
applicant (falling back to the principal). Returns (name, email). -/
def designated_admin (a : SchoolApplication) : String × String :=
  if a.applicant_is_principal || decide (a.admin_choice = some AdminChoice.principal) then
    (a.principal_name, a.principal_email)
  else
    (a.applicant_name.getD a.principal_name, a.applicant_email.getD a.principal_email)

/-- A database-level failure aborts the open transaction. -/
def Session.abort (s : Session) : Session := { s with aborted := true }

/-- Closing the session without a commit rolls the flushed changes back. -/
def Session.rollbackClose (s : Session) : Session :=
  ⟨s.committed, s.committed, false⟩

/-- The generic exception handler of `admin_approve_application`: a
best-effort `add_internal_note` (which commits the session, carrying along
whatever was flushed) under `contextlib.suppress`; on an aborted transaction
the commit fails and the session rolls back on close. -/
def noteAndClose (s : Session) (appId adminId : Nat) (note : String) (now : Int) :
    Session :=
  if s.aborted then s.rollbackClose
  else
    match add_internal_note s.pending appId note adminId now with
    | none => s.rollbackClose
    | some p => ⟨p, p, false⟩

/-- One space, the separator of the admin-name split. -/
def spaceString : String := " "

/-- Text of the note recorded when provisioning fails. -/
def provisioningFailedNote : String := "SYSTEM: Provisioning failed."

/-- Text of the note recorded when the welcome email fails. -/
def emailFailedNote : String := "SYSTEM: Welcome email failed to send."

/-- `service.admin_approve_application` over the session model: status
check, duplicate-account check, school flush, admin-user flush, the
APPROVED transition committing the unit, then best-effort welcome email.
`newSchoolId`, `newUserId` and `tempPasswordHash` stand for the generated
identities and the hashed temporary password. -/
def admin_approve_application (s : Session) (o : ApproveOracle)
    (appId adminId : Nat) (now : Int) (newSchoolId newUserId : Nat)
    (tempPasswordHash : String) : Session × Except AppError (Nat × Nat) :=
  match get_by_id s.pending appId with
  | none => (s, .error .applicationNotFound)
  | some application =>
    if application.status ∉ DECIDABLE_STATUSES then
      (s, .error .cannotDecideApplication)
    else
      let admin_name := (designated_admin application).1
      let admin_email := (designated_admin application).2
      match user_get_by_email s.pending admin_email with
      | some _ =>
          -- SchoolProvisioningError raised before any flush; the generic
          -- handler records an internal note (committing it) and re-raises.
          (noteAndClose s appId adminId provisioningFailedNote now,
           .error .schoolProvisioning)
      | none =>
        if o.school_flush_fails then
          (noteAndClose s.abort appId adminId provisioningFailedNote now,
           .error .schoolProvisioning)
        else
          let school := school_from_application newSchoolId application
          let s1 : Session := ⟨s.committed,
            { s.pending with schools := s.pending.schools ++ [school] }, s.aborted⟩
          if o.user_flush_fails then
            (noteAndClose s1.abort appId adminId provisioningFailedNote now,
             .error .schoolProvisioning)
          else
            let name_parts := admin_name.splitOn spaceString
            let first_name := name_parts.headD emptyString
            let last_name :=
              if name_parts.length > 1 then spaceString.intercalate name_parts.tail
              else emptyString
            let admin_user := admin_user_record newUserId admin_email
              tempPasswordHash first_name last_name newSchoolId
            let s2 : Session := ⟨s1.committed,
              { s1.pending with users := s1.pending.users ++ [admin_user] }, s1.aborted⟩
            match update_status s2.pending appId .approved
                ⟨none, none, some now, some adminId, none⟩ with
            | .error (.invalidStatusTransition _ _ _) =>
                -- handled by the dedicated except-clause: no note, reraise
                (s2.rollbackClose, .error .cannotDecideApplication)
            | .error _ =>
                (noteAndClose s2 appId adminId provisioningFailedNote now,
                 .error .schoolProvisioning)
            | .ok (p3, _) =>
              if o.commit_fails then
                (noteAndClose (Session.abort ⟨s2.committed, p3, s2.aborted⟩)
                   appId adminId provisioningFailedNote now,
                 .error .schoolProvisioning)
              else
                let s3 : Session := ⟨p3, p3, false⟩
                let s4 :=
                  if o.welcome_email_fails then
                    noteAndClose s3 appId adminId emailFailedNote now
                  else s3
                (s4, .ok (newSchoolId, newUserId))

/-! ## Background jobs (`jobs.py`) -/

/-- `REMINDER_THRESHOLD_HOURS` in seconds. -/
def REMINDER_THRESHOLD_SECONDS : Int := 48 * 3600

/-- `EXPIRY_THRESHOLD_HOURS` in seconds. -/
def EXPIRY_THRESHOLD_SECONDS : Int := 72 * 3600

/-- One reminder email handed to the notification collaborator: the target
application, the string placed in the verification link, and whether the
provider accepted it. -/
structure SentReminder where
  application_id : Nat
  token : TokenStr
  emailOk : Bool
deriving DecidableEq

/-- `jobs._process_applicant_verification_reminder`: look up the still-valid
token; with no valid token the item is skipped without marking; otherwise
the reminder email carries the stored `token.token` value and
`reminder_sent_at` is stamped regardless of email success. `oracle` tells
whether the provider accepts a given application id. -/
def process_applicant_verification_reminder (acc : Db × List SentReminder)
    (a : SchoolApplication) (now : Int) (oracle : Nat → Bool) :
    Db × List SentReminder :=
  match get_valid_token_for_application acc.1 a.id .applicant_verification now with
  | none => acc
  | some token =>
      (mark_reminder_sent acc.1 a.id now,
       acc.2 ++ [⟨a.id, token.token, oracle a.id⟩])

/-- `jobs._process_principal_confirmation_reminder_with_token`: the email
carries the stored `token.token` value; `reminder_sent_at` is stamped
regardless of email success. -/
def process_principal_confirmation_reminder (acc : Db × List SentReminder)
    (p : SchoolApplication × VerificationToken) (now : Int) (oracle : Nat → Bool) :
    Db × List SentReminder :=
  (mark_reminder_sent acc.1 p.1.id now,
   acc.2 ++ [⟨p.1.id, p.2.token, oracle p.1.id⟩])

/-- `jobs.send_verification_reminders`: part (a) processes applications in
AWAITING_APPLICANT_VERIFICATION submitted more than 48 hours ago with no
reminder sent; part (b) then queries (against the updated store) joined
principal tokens created more than 48 hours ago for unreminded applications
in AWAITING_PRINCIPAL_CONFIRMATION. Returns the store and every reminder
handed to the provider. -/
def send_verification_reminders (db : Db) (now : Int) (oracle : Nat → Bool) :
    Db × List SentReminder :=
  let reminder_threshold := now - REMINDER_THRESHOLD_SECONDS
  let applicant_applications :=
    get_applications_needing_reminder db reminder_threshold
      .awaiting_applicant_verification
  let r1 := applicant_applications.foldl
    (fun acc a => process_applicant_verification_reminder acc a now oracle) (db, [])
  let principal_tokens :=
    get_principal_tokens_needing_reminder r1.1 reminder_threshold now
  principal_tokens.foldl
    (fun acc p => process_principal_confirmation_reminder acc p now oracle) r1

/-- `jobs._process_application_expiry` restricted to its store effect:
`mark_application_expired`; a per-item failure is caught by the job loop and
leaves the store as it was. The expiry notice does not touch the store. -/
def process_application_expiry (db : Db) (appId : Nat) : Db :=
  match mark_application_expired db appId with
  | .ok (db1, _) => db1
  | .error _ => db

/-- `jobs.expire_unverified_applications`: part (a) expires applications in
AWAITING_APPLICANT_VERIFICATION submitted more than 72 hours ago (by
submission time); part (b) then expires applications in
AWAITING_PRINCIPAL_CONFIRMATION whose unused principal token was created
more than 72 hours ago (by token-creation time, queried against the store
updated by part (a)). -/
def expire_unverified_applications (db : Db) (now : Int) : Db :=
  let expiry_threshold := now - EXPIRY_THRESHOLD_SECONDS
  let applicant_applications := get_expired_unverified db expiry_threshold
  let db1 := applicant_applications.foldl
    (fun d a => process_application_expiry d a.id) db
  let principal_tokens := get_principal_tokens_to_expire db1 expiry_threshold
  principal_tokens.foldl (fun d p => process_application_expiry d p.1.id) db1

/-! ## Helper lemmas about the store primitives -/

theorem applyUpdates_status (u : UpdateFields) (a : SchoolApplication) :
    (applyUpdates u a).status = a.status := rfl

theorem applyUpdates_id (u : UpdateFields) (a : SchoolApplication) :
    (applyUpdates u a).id = a.id := rfl

theorem find?_app_some {l : List SchoolApplication} {i : Nat} {a : SchoolApplication}
    (h : l.find? (fun x => decide (x.id = i)) = some a) : a.id = i := by
  have := List.find?_some h
  exact of_decide_eq_true this

theorem get_by_id_some_id {db : Db} {i : Nat} {a : SchoolApplication}
    (h : get_by_id db i = some a) : a.id = i := find?_app_some h

theorem find?_replaceApp_self {l : List SchoolApplication} {i : Nat}
    {a a2 : SchoolApplication}
    (h : l.find? (fun x => decide (x.id = i)) = some a) (h2 : a2.id = i) :
    (replaceApp l a2).find? (fun x => decide (x.id = i)) = some a2 := by
  induction l with
  | nil => simp at h
  | cons hd tl ih =>
    have hcons : replaceApp (hd :: tl) a2 =
        (if hd.id = a2.id then a2 else hd) :: replaceApp tl a2 := rfl
    rw [hcons]
    by_cases hhd : hd.id = i
    · have hrep : (if hd.id = a2.id then a2 else hd) = a2 := if_pos (by rw [hhd, h2])
      rw [hrep]
      simp [h2]
    · have hrep : (if hd.id = a2.id then a2 else hd) = hd :=
        if_neg (fun he => hhd (by rw [he, h2]))
      rw [hrep]
      rw [List.find?_cons, decide_eq_false hhd] at h
      rw [List.find?_cons, decide_eq_false hhd]
      exact ih h

theorem find?_replaceApp_ne {l : List SchoolApplication} {i : Nat}
    {a2 : SchoolApplication} (hne : a2.id ≠ i) :
    (replaceApp l a2).find? (fun x => decide (x.id = i)) =
      l.find? (fun x => decide (x.id = i)) := by
  induction l with
  | nil => rfl
  | cons hd tl ih =>
    simp only [replaceApp, List.map_cons, List.find?_cons]
    by_cases hrep : hd.id = a2.id
    · rw [if_pos hrep]
      have h1 : (decide (a2.id = i)) = false := decide_eq_false hne
      have h2 : (decide (hd.id = i)) = false := by
        apply decide_eq_false; rw [hrep]; exact hne
      rw [h1, h2]
      exact ih
    · rw [if_neg hrep]
      cases hdi : (decide (hd.id = i)) with
      | true => rfl
      | false => exact ih

theorem get_by_id_setApplication_self {db : Db} {i : Nat}
    {a a2 : SchoolApplication} (h : get_by_id db i = some a) (h2 : a2.id = i) :
    get_by_id (setApplication db a2) i = some a2 :=
  find?_replaceApp_self h h2

theorem get_by_id_setApplication_ne {db : Db} {i : Nat}
    {a2 : SchoolApplication} (hne : a2.id ≠ i) :
    get_by_id (setApplication db a2) i = get_by_id db i :=
  find?_replaceApp_ne hne

theorem mem_replaceApp_of_ne {l : List SchoolApplication}
    {x a2 : SchoolApplication} (hx : x ∈ l) (hne : x.id ≠ a2.id) :
    x ∈ replaceApp l a2 := by
  have : (if x.id = a2.id then a2 else x) = x := if_neg hne
  simpa [replaceApp, this] using List.mem_map_of_mem (fun y => if y.id = a2.id then a2 else y) hx

theorem replaceApp_map_id (l : List SchoolApplication) (a2 : SchoolApplication) :
    (replaceApp l a2).map (fun x => x.id) = l.map (fun x => x.id) := by
  induction l with
  | nil => rfl
  | cons hd tl ih =>
    simp only [replaceApp, List.map_cons] at ih ⊢
    by_cases hrep : hd.id = a2.id
    · rw [if_pos hrep, ih, hrep]
    · rw [if_neg hrep, ih]

theorem mem_unique_by_id {l : List SchoolApplication}
    (hn : (l.map (fun x => x.id)).Nodup) {a b : SchoolApplication}
    (ha : a ∈ l) (hb : b ∈ l) (hab : a.id = b.id) : a = b := by
  induction l with
  | nil => simp at ha
  | cons hd tl ih =>
    simp only [List.map_cons, List.nodup_cons] at hn
    rcases List.mem_cons.mp ha with rfl | ha2
    · rcases List.mem_cons.mp hb with rfl | hb2
      · rfl
      · exact absurd (hab ▸ List.mem_map_of_mem (fun x => x.id) hb2) hn.1
    · rcases List.mem_cons.mp hb with rfl | hb2
      · exact absurd (hab ▸ List.mem_map_of_mem (fun x => x.id) ha2) hn.1
      · exact ih hn.2 ha2 hb2

theorem find?_of_mem_nodup {l : List SchoolApplication}
    (hn : (l.map (fun x => x.id)).Nodup) {a : SchoolApplication} (ha : a ∈ l) :
    l.find? (fun x => decide (x.id = a.id)) = some a := by
  induction l with
  | nil => simp at ha
  | cons hd tl ih =>
    simp only [List.map_cons, List.nodup_cons] at hn
    rcases List.mem_cons.mp ha with rfl | ha2
    · rw [List.find?_cons_of_pos _ (by simp)]
    · have hne : hd.id ≠ a.id := by
        intro he
        exact hn.1 (he ▸ List.mem_map_of_mem (fun x => x.id) ha2)
      rw [List.find?_cons_of_neg _ (by simpa using hne)]
      exact ih hn.2 ha2

theorem get_by_id_of_mem_nodup {db : Db}
    (hn : (db.applications.map (fun x => x.id)).Nodup) {a : SchoolApplication}
    (ha : a ∈ db.applications) : get_by_id db a.id = some a :=
  find?_of_mem_nodup hn ha

theorem find?_replaceTok_self {l : List VerificationToken} {s : TokenStr}
    {t t2 : VerificationToken}
    (h : l.find? (fun x => decide (x.token = s)) = some t) (h2 : t2.token = s) :
    (replaceTok l s t2).find? (fun x => decide (x.token = s)) = some t2 := by
  induction l with
  | nil => simp at h
  | cons hd tl ih =>
    have hcons : replaceTok (hd :: tl) s t2 =
        (if hd.token = s then t2 else hd) :: replaceTok tl s t2 := rfl
    rw [hcons]
    by_cases hhd : hd.token = s
    · rw [if_pos hhd]
      simp [h2]
    · rw [if_neg hhd]
      rw [List.find?_cons, decide_eq_false hhd] at h
      rw [List.find?_cons, decide_eq_false hhd]
      exact ih h

/-! ## C1 and C2: the transition table -/

/-- C1: `repository.update_status` follows the transition table exactly —
a target equal to the current status succeeds as a no-op re-apply, a
different target outside the allowed-successor list fails with
`InvalidStatusTransition` carrying the from-status, to-status and the
allowed list, and any target listed for the current status succeeds and
writes it. -/
theorem update_status_follows_transition_table (db : Db) (i : Nat)
    (app : SchoolApplication) (target : ApplicationStatus) (extra : UpdateFields)
    (happ : get_by_id db i = some app) :
    (target = app.status →
      ∃ db2 a2, update_status db i target extra = .ok (db2, a2) ∧
        a2.status = app.status ∧ get_by_id db2 i = some a2)
  ∧ (target ≠ app.status → target ∉ VALID_STATUS_TRANSITIONS app.status →
      update_status db i target extra =
        .error (.invalidStatusTransition app.status target
          (VALID_STATUS_TRANSITIONS app.status)))
  ∧ (target ∈ VALID_STATUS_TRANSITIONS app.status →
      ∃ db2 a2, update_status db i target extra = .ok (db2, a2) ∧
        a2.status = target ∧ get_by_id db2 i = some a2) := by
  have hid : app.id = i := get_by_id_some_id happ
  refine ⟨?_, ?_, ?_⟩
  · intro heq
    refine ⟨setApplication db (applyUpdates extra { app with status := target }),
      applyUpdates extra { app with status := target }, ?_, ?_, ?_⟩
    · simp only [update_status, happ]
      rw [if_neg (by intro hc; exact hc.1 heq)]
    · rw [applyUpdates_status, heq]
    · exact get_by_id_setApplication_self happ (by rw [applyUpdates_id]; exact hid)
  · intro hne hnm
    simp only [update_status, happ]
    rw [if_pos ⟨hne, hnm⟩]
  · intro hmem
    refine ⟨setApplication db (applyUpdates extra { app with status := target }),
      applyUpdates extra { app with status := target }, ?_, ?_, ?_⟩
    · simp only [update_status, happ]
      rw [if_neg (by intro hc; exact hc.2 hmem)]
    · rw [applyUpdates_status]
    · exact get_by_id_setApplication_self happ (by rw [applyUpdates_id]; exact hid)

/-- A concrete application in PENDING_REVIEW used by several witnesses. -/
def baseApp : SchoolApplication where
  id := 1
  school_name := "Greenfield Academy"
  year_established := 1990
  school_type := .privateSchool
  student_population := .from_100_to_300
  country_code := "LR"
  city := "Monrovia"
  address := "12 Broad Street"
  school_phone := none
  school_email := none
  principal_name := "Ada Onyems"
  principal_email := "ada@greenfield.example"
  principal_phone := "0770000001"
  applicant_is_principal := true
  applicant_name := none
  applicant_email := none
  applicant_phone := none
  applicant_role := none
  admin_choice := none
  status := .pending_review
  submitted_at := 0
  applicant_verified_at := none
  principal_confirmed_at := none
  reviewed_at := none
  reviewed_by := none
  decision_reason := none
  reminder_sent_at := none
  internal_notes := none

/-- A store holding just `baseApp`. -/
def baseDb : Db := ⟨[baseApp], [], [], []⟩

/-- Witness for C1 at a concrete store: the application is in
PENDING_REVIEW and the three branches of the theorem apply with target
UNDER_REVIEW. -/
theorem update_status_follows_transition_table_witness :
    get_by_id baseDb 1 = some baseApp ∧
    ((ApplicationStatus.under_review = baseApp.status →
      ∃ db2 a2, update_status baseDb 1 .under_review noExtra = .ok (db2, a2) ∧
        a2.status = baseApp.status ∧ get_by_id db2 1 = some a2)
  ∧ (ApplicationStatus.under_review ≠ baseApp.status →
      ApplicationStatus.under_review ∉ VALID_STATUS_TRANSITIONS baseApp.status →
      update_status baseDb 1 .under_review noExtra =
        .error (.invalidStatusTransition baseApp.status .under_review
          (VALID_STATUS_TRANSITIONS baseApp.status)))
  ∧ (ApplicationStatus.under_review ∈ VALID_STATUS_TRANSITIONS baseApp.status →
      ∃ db2 a2, update_status baseDb 1 .under_review noExtra = .ok (db2, a2) ∧
        a2.status = .under_review ∧ get_by_id db2 1 = some a2)) :=
  ⟨by decide,
   update_status_follows_transition_table baseDb 1 baseApp .under_review noExtra (by decide)⟩

/-- C2 counterexample: from the terminal status APPROVED a call of
`update_status` with the same status as target succeeds (the code only
rejects targets different from the current status), contradicting the claim
that no call from a terminal state succeeds. -/
theorem update_status_terminal_reapply_succeeds :
    ∃ db2 a2, update_status ⟨[{ baseApp with status := .approved }], [], [], []⟩ 1
      .approved noExtra = .ok (db2, a2) ∧ a2.status = .approved := by
  refine ⟨_, _, rfl, rfl⟩

/-- C2 (amended): from a terminal status every call of
`repository.update_status` with a target different from the current status
fails with `InvalidStatusTransition`; a call with the terminal status itself
as target succeeds as a no-op re-apply, so the status value never changes
once terminal, although that call does count as a successful write. -/
theorem terminal_status_only_reapply (db : Db) (i : Nat)
    (app : SchoolApplication) (target : ApplicationStatus) (extra : UpdateFields)
    (happ : get_by_id db i = some app)
    (hterm : app.status ∈ terminal_statuses) :
    (target ≠ app.status →
      update_status db i target extra =
        .error (.invalidStatusTransition app.status target
          (VALID_STATUS_TRANSITIONS app.status)))
  ∧ (∃ db2 a2, update_status db i app.status extra = .ok (db2, a2) ∧
      a2.status = app.status) := by
  have hempty : VALID_STATUS_TRANSITIONS app.status = [] := by
    have hh := hterm
    simp only [terminal_statuses, List.mem_cons, List.not_mem_nil, or_false] at hh
    rcases hh with h | h | h <;> rw [h] <;> rfl
  constructor
  · intro hne
    exact (update_status_follows_transition_table db i app target extra happ).2.1 hne
      (by rw [hempty]; simp)
  · obtain ⟨db2, a2, h1, h2, _⟩ :=
      (update_status_follows_transition_table db i app app.status extra happ).1 rfl
    exact ⟨db2, a2, h1, h2⟩

/-- Witness for the amended C2 at a concrete APPROVED application. -/
theorem terminal_status_only_reapply_witness :
    get_by_id ⟨[{ baseApp with status := .approved }], [], [], []⟩ 1 =
      some { baseApp with status := .approved } ∧
    ({ baseApp with status := .approved }).status ∈ terminal_statuses ∧
    ((ApplicationStatus.rejected ≠ ({ baseApp with status := .approved }).status →
      update_status ⟨[{ baseApp with status := .approved }], [], [], []⟩ 1
          .rejected noExtra =
        .error (.invalidStatusTransition ({ baseApp with status := .approved }).status
          .rejected
          (VALID_STATUS_TRANSITIONS ({ baseApp with status := .approved }).status)))
  ∧ (∃ db2 a2, update_status ⟨[{ baseApp with status := .approved }], [], [], []⟩ 1
        ({ baseApp with status := .approved }).status noExtra = .ok (db2, a2) ∧
      a2.status = ({ baseApp with status := .approved }).status)) :=
  ⟨by decide, by decide,
   terminal_status_only_reapply _ 1 { baseApp with status := .approved } .rejected
     noExtra (by decide) (by decide)⟩

/-! ## C4: token consumption -/

deriving instance DecidableEq for Except

theorem token_find?_some {l : List VerificationToken} {s : TokenStr}
    {t : VerificationToken}
    (h : l.find? (fun x => decide (x.token = s)) = some t) : t.token = s := by
  have := List.find?_some h
  exact of_decide_eq_true this

/-- A concrete application awaiting applicant verification. -/
def verAppA : SchoolApplication :=
  { baseApp with status := .awaiting_applicant_verification }

/-- A concrete unused applicant-verification token bound to `verAppA`. -/
def c4Tok : VerificationToken :=
  ⟨1, 1, hash_token (.raw 7), .applicant_verification, 1000, none, 0⟩

/-- Store before any consumption. -/
def c4Db0 : Db := ⟨[verAppA], [c4Tok], [], []⟩

/-- The token after the first `mark_token_used` at time 5. -/
def c4TokUsed : VerificationToken := { c4Tok with used_at := some 5 }

/-- Store after the first consumption. -/
def c4Db1 : Db := ⟨[verAppA], [c4TokUsed], [], []⟩

/-- C4 counterexample: `repository.mark_token_used` itself carries no
single-use guard — after a first successful call at time 5, a second call at
time 20 succeeds again (instead of failing with TokenAlreadyUsed) and
overwrites `used_at`. -/
theorem mark_token_used_second_call_overwrites :
    mark_token_used c4Db0 (hash_token (.raw 7)) 5 = .ok (c4Db1, c4TokUsed) ∧
    mark_token_used c4Db1 (hash_token (.raw 7)) 20 =
      .ok (⟨[verAppA], [{ c4Tok with used_at := some 20 }], [], []⟩,
           { c4Tok with used_at := some 20 }) ∧
    c4TokUsed.used_at ≠ ({ c4Tok with used_at := some 20 }).used_at := by
  refine ⟨by decide, by decide, by decide⟩

/-- C4 (amended): the single-use guard lives in `service._validate_token`,
which every consuming workflow operation runs before
`repository.mark_token_used`; for that validate-then-mark sequence the claim
holds: after one successful consumption, a second attempt fails with
TokenAlreadyUsed and leaves the store (hence the token and the derived
status of the owning application) untouched. `repository.mark_token_used`
alone, however, succeeds again and overwrites `used_at`. -/
theorem consume_twice_fails_token_already_used
    (db db1 : Db) (now1 now2 : Int) (raw : TokenStr) (ty : TokenType)
    (t : VerificationToken)
    (h : consume_token db now1 raw ty = (db1, .ok t)) :
    consume_token db1 now2 raw ty = (db1, .error .tokenAlreadyUsed) := by
  unfold consume_token at h
  cases hval : validate_token db now1 raw ty with
  | error e => rw [hval] at h; simp at h
  | ok pr =>
    rw [hval] at h
    cases hmk : mark_token_used db (hash_token raw) now1 with
    | error e => rw [hmk] at h; simp at h
    | ok pr2 =>
      rw [hmk] at h
      simp only [Prod.mk.injEq, Except.ok.injEq] at h
      obtain ⟨hdb1, -⟩ := h
      -- dissect the successful validation
      simp only [validate_token] at hval
      cases hg : get_by_token db (hash_token raw) with
      | none => rw [hg] at hval; simp at hval
      | some vt =>
        rw [hg] at hval
        simp only [] at hval
        by_cases hty : vt.token_type ≠ ty
        · rw [if_pos hty] at hval; simp at hval
        · rw [if_neg hty] at hval
          push_neg at hty
          -- dissect the successful mark
          simp only [mark_token_used, hg] at hmk
          have htok : vt.token = hash_token raw := token_find?_some hg
          rw [Except.ok.injEq] at hmk
          subst hmk
          simp only [] at hdb1
          -- the second validation meets the freshly used token
          have hg2 : get_by_token db1 (hash_token raw) =
              some { vt with used_at := some now1 } := by
            rw [← hdb1]
            exact find?_replaceTok_self hg htok
          have hvt2 : validate_token db1 now2 raw ty = .error .tokenAlreadyUsed := by
            simp [validate_token, hg2, hty]
          simp [consume_token, hvt2]

/-- Witness for the amended C4 at the concrete store: consuming the token
once succeeds; the second attempt fails with TokenAlreadyUsed and leaves the
store unchanged. -/
theorem consume_twice_fails_token_already_used_witness :
    consume_token c4Db0 5 (.raw 7) .applicant_verification =
      (c4Db1, .ok c4TokUsed) ∧
    consume_token c4Db1 20 (.raw 7) .applicant_verification =
      (c4Db1, .error .tokenAlreadyUsed) :=
  ⟨by decide,
   consume_twice_fails_token_already_used c4Db0 c4Db1 5 20 (.raw 7)
     .applicant_verification c4TokUsed (by decide)⟩

/-! ## C9: verify_applicant branches on applicant_is_principal -/

/-- C9: for a valid applicant-verification token whose application is in
AWAITING_APPLICANT_VERIFICATION, `verify_applicant` branches exactly on
`applicant_is_principal`: when true it transitions to PENDING_REVIEW and
stamps `applicant_verified_at` and `principal_confirmed_at` with the same
`now` (so they are equal); when false it transitions to
AWAITING_PRINCIPAL_CONFIRMATION, stamps only `applicant_verified_at`
(leaving `principal_confirmed_at` untouched) and creates a fresh
PRINCIPAL_CONFIRMATION token for the application. -/
theorem verify_applicant_branches_on_is_principal
    (db : Db) (now : Int) (tok : TokenStr) (newTokId rawTok : Nat)
    (vt : VerificationToken) (app : SchoolApplication)
    (hg : get_by_token db (hash_token tok) = some vt)
    (hty : vt.token_type = .applicant_verification)
    (hun : vt.used_at = none)
    (hexp : ¬ vt.expires_at < now)
    (happ : get_by_id db vt.application_id = some app)
    (hst : app.status = .awaiting_applicant_verification) :
    (app.applicant_is_principal = true →
      ∃ db3 a2, verify_applicant db now tok newTokId rawTok =
          (db3, .ok ⟨app.id, .pending_review, false, none⟩) ∧
        get_by_id db3 app.id = some a2 ∧
        a2.status = .pending_review ∧
        a2.applicant_verified_at = some now ∧
        a2.principal_confirmed_at = some now)
  ∧ (app.applicant_is_principal = false →
      ∃ db3 a2 t2, verify_applicant db now tok newTokId rawTok =
          (db3, .ok ⟨app.id, .awaiting_principal_confirmation, true,
            some (mask_email app.principal_email)⟩) ∧
        get_by_id db3 app.id = some a2 ∧
        a2.status = .awaiting_principal_confirmation ∧
        a2.applicant_verified_at = some now ∧
        a2.principal_confirmed_at = app.principal_confirmed_at ∧
        t2 ∈ db3.tokens ∧ t2.application_id = app.id ∧
        t2.token_type = .principal_confirmation ∧
        t2.token = hash_token (.raw rawTok) ∧
        t2.created_at = now ∧ t2.expires_at = now + TOKEN_EXPIRY_SECONDS) := by
  have hid : app.id = vt.application_id := get_by_id_some_id happ
  have hval : validate_token db now tok .applicant_verification = .ok (vt, app) := by
    simp [validate_token, hg, hty, hun, hexp, happ]
  have hmk : mark_token_used db (hash_token tok) now =
      .ok ({ db with tokens :=
               replaceTok db.tokens (hash_token tok) { vt with used_at := some now } },
           { vt with used_at := some now }) := by
    simp [mark_token_used, hg]
  have happ1 : get_by_id
      { db with tokens :=
          replaceTok db.tokens (hash_token tok) { vt with used_at := some now } }
      app.id = some app := by
    rw [hid]; exact happ
  constructor
  · intro hip
    have hcond : ¬(ApplicationStatus.pending_review ≠ app.status ∧
        ApplicationStatus.pending_review ∉ VALID_STATUS_TRANSITIONS app.status) := by
      rw [hst]; decide
    have hupd : update_status
        { db with tokens :=
            replaceTok db.tokens (hash_token tok) { vt with used_at := some now } }
        app.id .pending_review ⟨some now, some now, none, none, none⟩ =
        .ok (setApplication
              { db with tokens :=
                  replaceTok db.tokens (hash_token tok) { vt with used_at := some now } }
              (applyUpdates ⟨some now, some now, none, none, none⟩
                { app with status := .pending_review }),
             applyUpdates ⟨some now, some now, none, none, none⟩
               { app with status := .pending_review }) := by
      simp only [update_status, happ1]
      rw [if_neg hcond]
    have hrun : verify_applicant db now tok newTokId rawTok =
        (setApplication
           { db with tokens :=
               replaceTok db.tokens (hash_token tok) { vt with used_at := some now } }
           (applyUpdates ⟨some now, some now, none, none, none⟩
             { app with status := .pending_review }),
         .ok ⟨app.id, .pending_review, false, none⟩) := by
      simp [verify_applicant, hval, hst, hmk, hip, hupd]
    exact ⟨_, _, hrun,
      get_by_id_setApplication_self happ1 (by rw [applyUpdates_id]), rfl, rfl, rfl⟩
  · intro hip
    have hcond : ¬(ApplicationStatus.awaiting_principal_confirmation ≠ app.status ∧
        ApplicationStatus.awaiting_principal_confirmation ∉
          VALID_STATUS_TRANSITIONS app.status) := by
      rw [hst]; decide
    have hupd : update_status
        { db with tokens :=
            replaceTok db.tokens (hash_token tok) { vt with used_at := some now } }
        app.id .awaiting_principal_confirmation ⟨some now, none, none, none, none⟩ =
        .ok (setApplication
              { db with tokens :=
                  replaceTok db.tokens (hash_token tok) { vt with used_at := some now } }
              (applyUpdates ⟨some now, none, none, none, none⟩
                { app with status := .awaiting_principal_confirmation }),
             applyUpdates ⟨some now, none, none, none, none⟩
               { app with status := .awaiting_principal_confirmation }) := by
      simp only [update_status, happ1]
      rw [if_neg hcond]
    have hrun : verify_applicant db now tok newTokId rawTok =
        ({ setApplication
             { db with tokens :=
                 replaceTok db.tokens (hash_token tok) { vt with used_at := some now } }
             (applyUpdates ⟨some now, none, none, none, none⟩
               { app with status := .awaiting_principal_confirmation }) with
           tokens :=
             replaceTok db.tokens (hash_token tok) { vt with used_at := some now } ++
               [⟨newTokId, app.id, hash_token (.raw rawTok), .principal_confirmation,
                 now + TOKEN_EXPIRY_SECONDS, none, now⟩] },
         .ok ⟨app.id, .awaiting_principal_confirmation, true,
           some (mask_email app.principal_email)⟩) := by
      simp [verify_applicant, hval, hst, hmk, hip, hupd, create_token, setApplication]
    refine ⟨_, applyUpdates ⟨some now, none, none, none, none⟩
      { app with status := .awaiting_principal_confirmation },
      ⟨newTokId, app.id, hash_token (.raw rawTok), .principal_confirmation,
      now + TOKEN_EXPIRY_SECONDS, none, now⟩, hrun, ?_, rfl, rfl, rfl, ?_, rfl, rfl, rfl,
      rfl, rfl⟩
    · exact get_by_id_setApplication_self happ1 (by rw [applyUpdates_id])
    · simp

/-- Witness for C9: the concrete applicant-is-principal application of
`c4Db0` moves straight to PENDING_REVIEW with both timestamps stamped. -/
theorem verify_applicant_branches_on_is_principal_witness :
    ∃ db3 a2, verify_applicant c4Db0 5 (.raw 7) 2 8 =
        (db3, .ok ⟨verAppA.id, .pending_review, false, none⟩) ∧
      get_by_id db3 verAppA.id = some a2 ∧
      a2.status = .pending_review ∧
      a2.applicant_verified_at = some 5 ∧
      a2.principal_confirmed_at = some 5 :=
  (verify_applicant_branches_on_is_principal c4Db0 5 (.raw 7) 2 8 c4Tok verAppA
    (by decide) (by decide) (by decide) (by decide) (by decide) (by decide)).1
    (by decide)

/-! ## C6: the expiry job and its time bases -/

theorem update_status_inv {db db2 : Db} {j : Nat} {st : ApplicationStatus}
    {ex : UpdateFields} {a2 : SchoolApplication}
    (h : update_status db j st ex = .ok (db2, a2)) :
    ∃ a, get_by_id db j = some a ∧
      a2 = applyUpdates ex { a with status := st } ∧ db2 = setApplication db a2 := by
  cases hj : get_by_id db j with
  | none => simp only [update_status, hj] at h; simp at h
  | some a =>
    simp only [update_status, hj] at h
    by_cases hc : st ≠ a.status ∧ st ∉ VALID_STATUS_TRANSITIONS a.status
    · rw [if_pos hc] at h; simp at h
    · rw [if_neg hc] at h
      simp only [Except.ok.injEq, Prod.mk.injEq] at h
      exact ⟨a, rfl, h.2.symm, by rw [← h.1, ← h.2]⟩

theorem process_application_expiry_get_ne {db : Db} {j i : Nat} (hne : j ≠ i) :
    get_by_id (process_application_expiry db j) i = get_by_id db i := by
  cases hu : mark_application_expired db j with
  | error e => simp only [process_application_expiry, hu]
  | ok pr =>
    obtain ⟨db2, a2⟩ := pr
    simp only [process_application_expiry, hu]
    obtain ⟨a, hj, ha2, hdb2⟩ := update_status_inv hu
    have hida : a.id = j := get_by_id_some_id hj
    have hid2 : a2.id = j := by rw [ha2, applyUpdates_id]; exact hida
    rw [hdb2]
    exact get_by_id_setApplication_ne (by rw [hid2]; exact hne)

theorem process_application_expiry_tokens (db : Db) (j : Nat) :
    (process_application_expiry db j).tokens = db.tokens := by
  cases hu : mark_application_expired db j with
  | error e => simp only [process_application_expiry, hu]
  | ok pr =>
    obtain ⟨db2, a2⟩ := pr
    simp only [process_application_expiry, hu]
    obtain ⟨a, hj, ha2, hdb2⟩ := update_status_inv hu
    rw [hdb2]; rfl

theorem process_application_expiry_mem_ne {db : Db} {j : Nat}
    {a : SchoolApplication} (ha : a ∈ db.applications) (hne : a.id ≠ j) :
    a ∈ (process_application_expiry db j).applications := by
  cases hu : mark_application_expired db j with
  | error e => simp only [process_application_expiry, hu]; exact ha
  | ok pr =>
    obtain ⟨db2, a2⟩ := pr
    simp only [process_application_expiry, hu]
    obtain ⟨b, hj, ha2, hdb2⟩ := update_status_inv hu
    have hidb : b.id = j := get_by_id_some_id hj
    have hid2 : a2.id = j := by rw [ha2, applyUpdates_id]; exact hidb
    rw [hdb2]
    exact mem_replaceApp_of_ne ha (by rw [hid2]; exact hne)

theorem process_application_expiry_sets_expired {db : Db} {i : Nat}
    {a : SchoolApplication} (h : get_by_id db i = some a)
    (hs : a.status = .awaiting_principal_confirmation ∨
          a.status = .awaiting_applicant_verification ∨ a.status = .expired) :
    ∃ a2, get_by_id (process_application_expiry db i) i = some a2 ∧
      a2.status = .expired := by
  have hc : ¬(ApplicationStatus.expired ≠ a.status ∧
      ApplicationStatus.expired ∉ VALID_STATUS_TRANSITIONS a.status) := by
    rcases hs with h1 | h1 | h1 <;> rw [h1] <;> decide
  have hu : mark_application_expired db i =
      .ok (setApplication db (applyUpdates noExtra { a with status := .expired }),
           applyUpdates noExtra { a with status := .expired }) := by
    simp only [mark_application_expired, update_status, h]
    rw [if_neg hc]
  have hida : a.id = i := get_by_id_some_id h
  refine ⟨applyUpdates noExtra { a with status := .expired }, ?_, rfl⟩
  simp only [process_application_expiry, hu]
  exact get_by_id_setApplication_self h (by rw [applyUpdates_id]; exact hida)

theorem fold_expiry_preserves_expired
    (l : List (SchoolApplication × VerificationToken)) (db : Db) (i : Nat)
    (a : SchoolApplication) (h : get_by_id db i = some a)
    (hs : a.status = .expired) :
    ∃ a2, get_by_id
        (l.foldl (fun d p => process_application_expiry d p.1.id) db) i = some a2 ∧
      a2.status = .expired := by
  induction l generalizing db a with
  | nil => exact ⟨a, h, hs⟩
  | cons hd tl ih =>
    simp only [List.foldl_cons]
    by_cases hhd : hd.1.id = i
    · have h0 : get_by_id db hd.1.id = some a := by rw [hhd]; exact h
      obtain ⟨a2, h2, hs2⟩ :=
        process_application_expiry_sets_expired h0 (Or.inr (Or.inr hs))
      exact ih _ a2 (by rw [← hhd]; exact h2) hs2
    · exact ih _ a (by rw [process_application_expiry_get_ne hhd]; exact h) hs

theorem fold_expiry_hits
    (l : List (SchoolApplication × VerificationToken)) (db : Db) (i : Nat)
    (a : SchoolApplication) (h : get_by_id db i = some a)
    (hs : a.status = .awaiting_principal_confirmation ∨ a.status = .expired)
    (hmem : ∃ p ∈ l, p.1.id = i) :
    ∃ a2, get_by_id
        (l.foldl (fun d p => process_application_expiry d p.1.id) db) i = some a2 ∧
      a2.status = .expired := by
  induction l generalizing db a with
  | nil => simp at hmem
  | cons hd tl ih =>
    simp only [List.foldl_cons]
    by_cases hhd : hd.1.id = i
    · have h0 : get_by_id db hd.1.id = some a := by rw [hhd]; exact h
      obtain ⟨a2, h2, hs2⟩ :=
        process_application_expiry_sets_expired h0
          (by rcases hs with h1 | h1; exacts [Or.inl h1, Or.inr (Or.inr h1)])
      exact fold_expiry_preserves_expired tl _ i a2 (by rw [← hhd]; exact h2) hs2
    · obtain ⟨p, hp, hpi⟩ := hmem
      rcases List.mem_cons.mp hp with rfl | hp2
      · exact absurd hpi hhd
      · exact ih _ a (by rw [process_application_expiry_get_ne hhd]; exact h) hs
          ⟨p, hp2, hpi⟩

theorem fold_expiry_apps_get_ne
    (l : List SchoolApplication) (db : Db) (i : Nat)
    (hne : ∀ x ∈ l, x.id ≠ i) :
    get_by_id (l.foldl (fun d a => process_application_expiry d a.id) db) i =
      get_by_id db i := by
  induction l generalizing db with
  | nil => rfl
  | cons hd tl ih =>
    simp only [List.foldl_cons]
    rw [ih _ (fun x hx => hne x (List.mem_cons_of_mem hd hx)),
        process_application_expiry_get_ne (hne hd (List.mem_cons_self hd tl))]

theorem fold_expiry_apps_mem
    (l : List SchoolApplication) (db : Db) {a : SchoolApplication}
    (ha : a ∈ db.applications) (hne : ∀ x ∈ l, x.id ≠ a.id) :
    a ∈ (l.foldl (fun d a => process_application_expiry d a.id) db).applications := by
  induction l generalizing db with
  | nil => exact ha
  | cons hd tl ih =>
    simp only [List.foldl_cons]
    exact ih _
      (process_application_expiry_mem_ne ha
        (fun he => hne hd (List.mem_cons_self hd tl) he.symm))
      (fun x hx => hne x (List.mem_cons_of_mem hd hx))

theorem fold_expiry_apps_tokens (l : List SchoolApplication) (db : Db) :
    (l.foldl (fun d a => process_application_expiry d a.id) db).tokens =
      db.tokens := by
  induction l generalizing db with
  | nil => rfl
  | cons hd tl ih =>
    simp only [List.foldl_cons]
    rw [ih, process_application_expiry_tokens]

/-- C6: `expire_unverified_applications` decides expiry of an application in
AWAITING_PRINCIPAL_CONFIRMATION by the creation time of its unused principal
token, not by the submission time of the application: the application is
transitioned to EXPIRED even though it was submitted less than 72 hours ago
(here the token was created more than 72 hours before `now`). -/
theorem expiry_uses_principal_token_creation_time
    (db : Db) (now : Int) (app : SchoolApplication) (tok : VerificationToken)
    (hids : (db.applications.map (fun x => x.id)).Nodup)
    (happ : app ∈ db.applications)
    (hst : app.status = .awaiting_principal_confirmation)
    (htm : tok ∈ db.tokens)
    (hta : tok.application_id = app.id)
    (hty : tok.token_type = .principal_confirmation)
    (hun : tok.used_at = none)
    (hcr : tok.created_at < now - EXPIRY_THRESHOLD_SECONDS)
    (hsub : now - EXPIRY_THRESHOLD_SECONDS < app.submitted_at) :
    ∃ a2, get_by_id (expire_unverified_applications db now) app.id = some a2 ∧
      a2.status = .expired := by
  unfold expire_unverified_applications
  have hget : get_by_id db app.id = some app := get_by_id_of_mem_nodup hids happ
  have hne1 : ∀ x ∈ get_expired_unverified db (now - EXPIRY_THRESHOLD_SECONDS),
      x.id ≠ app.id := by
    intro x hx he
    have hx2 := List.mem_filter.mp hx
    have hxa : x = app := mem_unique_by_id hids hx2.1 happ he
    have := of_decide_eq_true (Bool.and_elim_left hx2.2)
    rw [hxa, hst] at this
    cases this
  have hget1 : get_by_id
      ((get_expired_unverified db (now - EXPIRY_THRESHOLD_SECONDS)).foldl
        (fun d a => process_application_expiry d a.id) db) app.id = some app :=
    (fold_expiry_apps_get_ne _ db app.id hne1).trans hget
  have hmem1 : app ∈ ((get_expired_unverified db (now - EXPIRY_THRESHOLD_SECONDS)).foldl
      (fun d a => process_application_expiry d a.id) db).applications :=
    fold_expiry_apps_mem _ db happ (fun x hx he => hne1 x hx he)
  have htok1 : tok ∈ ((get_expired_unverified db (now - EXPIRY_THRESHOLD_SECONDS)).foldl
      (fun d a => process_application_expiry d a.id) db).tokens := by
    rw [fold_expiry_apps_tokens]; exact htm
  have hpair : (app, tok) ∈ get_principal_tokens_to_expire
      ((get_expired_unverified db (now - EXPIRY_THRESHOLD_SECONDS)).foldl
        (fun d a => process_application_expiry d a.id) db)
      (now - EXPIRY_THRESHOLD_SECONDS) := by
    apply List.mem_filter.mpr
    constructor
    · apply List.mem_flatMap.mpr
      refine ⟨app, hmem1, ?_⟩
      apply List.mem_map.mpr
      refine ⟨tok, ?_, rfl⟩
      exact List.mem_filter.mpr ⟨htok1, decide_eq_true hta⟩
    · simp [hst, hty, hun, hcr]
  exact fold_expiry_hits _ _ app.id app hget1 (Or.inl hst) ⟨(app, tok), hpair, rfl⟩

/-- A concrete application awaiting principal confirmation, submitted 10
hours before time 300·3600. -/
def prinApp : SchoolApplication :=
  { baseApp with status := .awaiting_principal_confirmation,
                 applicant_is_principal := false,
                 submitted_at := 290 * 3600 }

/-- An unused principal token for `prinApp` created 73 hours before time
300·3600. -/
def prinTok : VerificationToken :=
  ⟨3, 1, hash_token (.raw 9), .principal_confirmation, 299 * 3600, none, 227 * 3600⟩

/-- Witness for C6: the token is 73 hours old, the application only 10 hours
old, and the job still expires it. -/
theorem expiry_uses_principal_token_creation_time_witness :
    ∃ a2, get_by_id
        (expire_unverified_applications ⟨[prinApp], [prinTok], [], []⟩ (300 * 3600))
        prinApp.id = some a2 ∧ a2.status = .expired :=
  expiry_uses_principal_token_creation_time ⟨[prinApp], [prinTok], [], []⟩
    (300 * 3600) prinApp prinTok (by decide) (by decide) (by decide) (by decide)
    (by decide) (by decide) (by decide) (by decide) (by decide)

/-! ## C10: the reminder email carries the stored hash, which never
validates -/

/-- Every stored token string is the SHA-256 digest of some raw token: this
is exactly what `create_token` call sites maintain (they always store
`_hash_token` of a generated raw token). -/
def TokenStoreWF (db : Db) : Prop :=
  ∀ t ∈ db.tokens, ∃ n, t.token = hash_token (.raw n)

theorem get_by_token_hash_of_stored_eq_none {db : Db} (hwf : TokenStoreWF db)
    {s : TokenStr} (hs : ∃ n, s = hash_token (.raw n)) :
    get_by_token db (hash_token s) = none := by
  apply List.find?_eq_none.mpr
  intro t ht
  obtain ⟨n, hn⟩ := hs
  obtain ⟨m, hm⟩ := hwf t ht
  simp only [decide_eq_true_eq]
  rw [hm, hn]
  simp [hash_token]

theorem validate_stored_hash_fails {db : Db} (hwf : TokenStoreWF db)
    {s : TokenStr} (hs : ∃ n, s = hash_token (.raw n)) (now : Int)
    (ty : TokenType) : validate_token db now s ty = .error .invalidToken := by
  simp [validate_token, get_by_token_hash_of_stored_eq_none hwf hs]

theorem mark_reminder_sent_tokens (db : Db) (i : Nat) (t : Int) :
    (mark_reminder_sent db i t).tokens = db.tokens := by
  cases hx : get_by_id db i with
  | none => simp [mark_reminder_sent, hx]
  | some a => simp [mark_reminder_sent, hx, setApplication]

theorem mem_of_get_valid_token {d : Db} {i : Nat} {ty : TokenType} {now : Int}
    {t : VerificationToken}
    (h : get_valid_token_for_application d i ty now = some t) : t ∈ d.tokens :=
  List.mem_of_find?_eq_some h

theorem mem_joinTokens {d : Db} {p : SchoolApplication × VerificationToken}
    (h : p ∈ joinTokens d) : p.1 ∈ d.applications ∧ p.2 ∈ d.tokens := by
  obtain ⟨a, ha, hp⟩ := List.mem_flatMap.mp h
  obtain ⟨t, ht, he⟩ := List.mem_map.mp hp
  subst he
  exact ⟨ha, (List.mem_filter.mp ht).1⟩

theorem fold_reminder1_inv (l : List SchoolApplication) (now : Int)
    (oracle : Nat → Bool) (db0 : Db) (acc : Db × List SentReminder)
    (htk : acc.1.tokens = db0.tokens)
    (hr : ∀ r ∈ acc.2, ∃ t ∈ db0.tokens, r.token = t.token) :
    ((l.foldl (fun acc a => process_applicant_verification_reminder acc a now oracle)
        acc).1.tokens = db0.tokens) ∧
    (∀ r ∈ (l.foldl
        (fun acc a => process_applicant_verification_reminder acc a now oracle)
        acc).2, ∃ t ∈ db0.tokens, r.token = t.token) := by
  induction l generalizing acc with
  | nil => exact ⟨htk, hr⟩
  | cons hd tl ih =>
    simp only [List.foldl_cons]
    cases hv : get_valid_token_for_application acc.1 hd.id
        .applicant_verification now with
    | none =>
      have hstep : process_applicant_verification_reminder acc hd now oracle = acc := by
        simp [process_applicant_verification_reminder, hv]
      rw [hstep]
      exact ih acc htk hr
    | some tk =>
      have hstep : process_applicant_verification_reminder acc hd now oracle =
          (mark_reminder_sent acc.1 hd.id now,
           acc.2 ++ [⟨hd.id, tk.token, oracle hd.id⟩]) := by
        simp [process_applicant_verification_reminder, hv]
      rw [hstep]
      refine ih _ ?_ ?_
      · rw [mark_reminder_sent_tokens]; exact htk
      · intro r hrm
        rcases List.mem_append.mp hrm with h1 | h1
        · exact hr r h1
        · have he : r = ⟨hd.id, tk.token, oracle hd.id⟩ := by simpa using h1
          subst he
          exact ⟨tk, htk ▸ mem_of_get_valid_token hv, rfl⟩

theorem fold_reminder2_inv (l : List (SchoolApplication × VerificationToken))
    (now : Int) (oracle : Nat → Bool) (db0 : Db) (acc : Db × List SentReminder)
    (htk : acc.1.tokens = db0.tokens)
    (hp : ∀ p ∈ l, p.2 ∈ db0.tokens)
    (hr : ∀ r ∈ acc.2, ∃ t ∈ db0.tokens, r.token = t.token) :
    ((l.foldl (fun acc p => process_principal_confirmation_reminder acc p now oracle)
        acc).1.tokens = db0.tokens) ∧
    (∀ r ∈ (l.foldl
        (fun acc p => process_principal_confirmation_reminder acc p now oracle)
        acc).2, ∃ t ∈ db0.tokens, r.token = t.token) := by
  induction l generalizing acc with
  | nil => exact ⟨htk, hr⟩
  | cons hd tl ih =>
    simp only [List.foldl_cons]
    refine ih _ ?_ (fun p hp2 => hp p (List.mem_cons_of_mem hd hp2)) ?_
    · simp only [process_principal_confirmation_reminder]
      rw [mark_reminder_sent_tokens]
      exact htk
    · intro r hrm
      simp only [process_principal_confirmation_reminder] at hrm
      rcases List.mem_append.mp hrm with h1 | h1
      · exact hr r h1
      · have he : r = ⟨hd.1.id, hd.2.token, oracle hd.1.id⟩ := by simpa using h1
        subst he
        exact ⟨hd.2, hp hd (List.mem_cons_self hd tl), rfl⟩

theorem send_reminders_token_stored (db : Db) (now : Int) (oracle : Nat → Bool) :
    ∀ r ∈ (send_verification_reminders db now oracle).2,
      ∃ t ∈ db.tokens, r.token = t.token := by
  intro r hr
  simp only [send_verification_reminders] at hr
  have h1 := fold_reminder1_inv
    (get_applications_needing_reminder db (now - REMINDER_THRESHOLD_SECONDS)
      .awaiting_applicant_verification) now oracle db (db, []) rfl
    (by intro r h; simp at h)
  have hpair : ∀ p ∈ get_principal_tokens_needing_reminder
      ((get_applications_needing_reminder db (now - REMINDER_THRESHOLD_SECONDS)
        .awaiting_applicant_verification).foldl
        (fun acc a => process_applicant_verification_reminder acc a now oracle)
        (db, [])).1 (now - REMINDER_THRESHOLD_SECONDS) now,
      p.2 ∈ db.tokens := by
    intro p hp
    have hj := (mem_joinTokens (List.mem_filter.mp hp).1).2
    rw [h1.1] at hj
    exact hj
  have h2 := fold_reminder2_inv
    (get_principal_tokens_needing_reminder
      ((get_applications_needing_reminder db (now - REMINDER_THRESHOLD_SECONDS)
        .awaiting_applicant_verification).foldl
        (fun acc a => process_applicant_verification_reminder acc a now oracle)
        (db, [])).1 (now - REMINDER_THRESHOLD_SECONDS) now) now oracle db _
    h1.1 hpair h1.2
  exact h2.2 r hr

/-- C10: the string the reminder job places in the reminder email is the
stored `token.token` value, i.e. the SHA-256 digest of the raw token rather
than the raw token itself; token validation hashes its input before lookup,
so presenting the emailed string to `verify_applicant` or
`confirm_principal` always fails with InvalidToken (against any store whose
token column holds digests of raw tokens), even while the underlying token
itself is still valid. -/
theorem reminder_email_token_never_validates
    (db : Db) (now : Int) (oracle : Nat → Bool) (r : SentReminder)
    (hwf : TokenStoreWF db)
    (hr : r ∈ (send_verification_reminders db now oracle).2) :
    (∃ t ∈ db.tokens, r.token = t.token) ∧
    ∀ (db2 : Db) (now2 : Int) (newTokId rawTok : Nat), TokenStoreWF db2 →
      verify_applicant db2 now2 r.token newTokId rawTok =
        (db2, .error .invalidToken) ∧
      confirm_principal db2 now2 r.token = (db2, .error .invalidToken) := by
  obtain ⟨t, ht, hrt⟩ := send_reminders_token_stored db now oracle r hr
  obtain ⟨n, hn⟩ := hwf t ht
  have hs : ∃ n, r.token = hash_token (.raw n) := ⟨n, by rw [hrt, hn]⟩
  refine ⟨⟨t, ht, hrt⟩, ?_⟩
  intro db2 now2 newTokId rawTok hwf2
  constructor
  · simp [verify_applicant, validate_stored_hash_fails hwf2 hs]
  · simp [confirm_principal, validate_stored_hash_fails hwf2 hs]

/-- A reminder-eligible application: awaiting applicant verification,
submitted at time 0, no reminder sent. -/
def remApp : SchoolApplication := { verAppA with submitted_at := 0 }

/-- A valid stored applicant token for `remApp` at time 300·3600. -/
def remTok : VerificationToken :=
  ⟨4, 1, hash_token (.raw 7), .applicant_verification, 301 * 3600, none, 0⟩

/-- The store for the C10 witness. -/
def remDb : Db := ⟨[remApp], [remTok], [], []⟩

/-- Witness for C10: the concrete reminder sent by the job carries the
stored digest, and presenting it to either verification endpoint fails with
InvalidToken. -/
theorem reminder_email_token_never_validates_witness :
    (∃ t ∈ remDb.tokens,
      (⟨1, hash_token (.raw 7), true⟩ : SentReminder).token = t.token) ∧
    (verify_applicant remDb (300 * 3600) (hash_token (.raw 7)) 9 10 =
      (remDb, .error .invalidToken) ∧
     confirm_principal remDb (300 * 3600) (hash_token (.raw 7)) =
      (remDb, .error .invalidToken)) :=
  ⟨(reminder_email_token_never_validates remDb (300 * 3600) (fun _ => true)
      ⟨1, hash_token (.raw 7), true⟩
      (by intro t ht; simp only [remDb] at ht; simp at ht; subst ht; exact ⟨7, rfl⟩)
      (by decide)).1,
   (reminder_email_token_never_validates remDb (300 * 3600) (fun _ => true)
      ⟨1, hash_token (.raw 7), true⟩
      (by intro t ht; simp only [remDb] at ht; simp at ht; subst ht; exact ⟨7, rfl⟩)
      (by decide)).2 remDb (300 * 3600) 9 10
      (by intro t ht; simp only [remDb] at ht; simp at ht; subst ht; exact ⟨7, rfl⟩)⟩

/-! ## C5: duplicate detection by (school_name, city) -/

/-- A submission with the same school and city as `baseApp` but in upper
case, from a different applicant. -/
def cSub : SubmitData where
  school_name := "GREENFIELD ACADEMY"
  year_established := 1990
  school_type := .privateSchool
  student_population := .from_100_to_300
  country_code := "LR"
  city := "MONROVIA"
  address := "14 Broad Street"
  school_phone := none
  school_email := none
  principal_name := "Kofi Mensa"
  principal_email := "kofi@greenfield.example"
  principal_phone := "0770000002"
  applicant_is_principal := true
  applicant_name := none
  applicant_email := none
  applicant_phone := none
  applicant_role := none
  admin_choice := none

/-- The same submission with the exact (same-case) pair of `baseApp`. -/
def dExact : SubmitData :=
  { cSub with school_name := "Greenfield Academy", city := "Monrovia" }

/-- C5 counterexample: while `baseApp` (school "Greenfield Academy" in
"Monrovia") is pending, a second submission for "GREENFIELD ACADEMY" in
"MONROVIA" — the same pair case-insensitively — does NOT fail with
DuplicateApplication: the service checks compare case-sensitively and pass,
and the insert dies on the database unique index with an untranslated
integrity error. -/
theorem submit_case_insensitive_duplicate_not_duplicate_error :
    (submit_application baseDb cSub 100 50 51 52).2 = .error .integrityViolation ∧
    (submit_application baseDb cSub 100 50 51 52).2 ≠
      .error .duplicateApplication := by
  refine ⟨by decide, by decide⟩

/-- C5 (amended): when the second submission carries exactly the same
(school_name, city) strings as a non-terminal application, it fails with
DuplicateApplication, and once every case-insensitive match is terminal a
new submission with the pair succeeds; but when the pair matches a
non-terminal application only case-insensitively (not as exact strings), the
submission is rejected by the database unique partial index as a generic
integrity error, not as DuplicateApplication. -/
theorem submit_duplicate_detection_behavior
    (db : Db) (d : SubmitData) (now : Int) (newAppId newTokId rawTok : Nat) :
    ((get_pending_by_school_and_city db d.school_name d.city).isSome = true →
      (submit_application db d now newAppId newTokId rawTok).2 =
        .error .duplicateApplication)
  ∧ (check_duplicate_by_applicant_email db (effective_email_schema d)
        d.school_name = .ok () →
     get_pending_by_school_and_city db d.school_name d.city = none →
     (∀ a ∈ db.applications, lowerStr a.school_name = lowerStr d.school_name →
        lowerStr a.city = lowerStr d.city → a.status ∉ pending_statuses) →
      (submit_application db d now newAppId newTokId rawTok).2 = .ok newAppId)
  ∧ (check_duplicate_by_applicant_email db (effective_email_schema d)
        d.school_name = .ok () →
     get_pending_by_school_and_city db d.school_name d.city = none →
     (∃ a ∈ db.applications, lowerStr a.school_name = lowerStr d.school_name ∧
        lowerStr a.city = lowerStr d.city ∧ a.status ∈ pending_statuses) →
      (submit_application db d now newAppId newTokId rawTok).2 =
        .error .integrityViolation) := by
  refine ⟨?_, ?_, ?_⟩
  · intro hsome
    by_cases h1 : (get_by_applicant_email db (effective_email_schema d)).any
        (fun a => decide (a.school_name = d.school_name) &&
          decide (a.status ∈ pending_statuses)) = true
    · have hc1 : check_duplicate_by_applicant_email db (effective_email_schema d)
          d.school_name = .error .duplicateApplication := by
        simp [check_duplicate_by_applicant_email, h1]
      simp [submit_application, hc1]
    · have hc1 : check_duplicate_by_applicant_email db (effective_email_schema d)
          d.school_name = .ok () := by
        simp only [check_duplicate_by_applicant_email]
        rw [if_neg (by simpa using h1)]
      have hc2 : check_duplicate_by_school_and_city db d.school_name d.city =
          .error .duplicateApplication := by
        simp [check_duplicate_by_school_and_city, hsome]
      simp [submit_application, hc1, hc2]
  · intro h1 h2 h3
    have hc2 : check_duplicate_by_school_and_city db d.school_name d.city =
        .ok () := by
      simp [check_duplicate_by_school_and_city, h2]
    have hany : (db.applications.any (fun a =>
        decide (lowerStr a.school_name = lowerStr d.school_name) &&
        decide (lowerStr a.city = lowerStr d.city) &&
        decide (a.status ∈ pending_statuses))) = false := by
      rw [List.any_eq_false]
      intro a ha hcontra
      simp only [Bool.and_eq_true, decide_eq_true_eq] at hcontra
      exact h3 a ha hcontra.1.1 hcontra.1.2 hcontra.2
    have hcr : repository_create db newAppId d now =
        .ok ({ db with applications := db.applications ++
                 [⟨newAppId, d.school_name, d.year_established, d.school_type,
                   d.student_population, d.country_code, d.city, d.address,
                   d.school_phone, d.school_email, d.principal_name,
                   d.principal_email, d.principal_phone, d.applicant_is_principal,
                   d.applicant_name, d.applicant_email, d.applicant_phone,
                   d.applicant_role, d.admin_choice,
                   .awaiting_applicant_verification, now, none, none, none, none,
                   none, none, none⟩] },
              ⟨newAppId, d.school_name, d.year_established, d.school_type,
               d.student_population, d.country_code, d.city, d.address,
               d.school_phone, d.school_email, d.principal_name,
               d.principal_email, d.principal_phone, d.applicant_is_principal,
               d.applicant_name, d.applicant_email, d.applicant_phone,
               d.applicant_role, d.admin_choice,
               .awaiting_applicant_verification, now, none, none, none, none,
               none, none, none⟩) := by
      simp only [repository_create, hany]
      rw [if_neg (by simp)]
    simp [submit_application, h1, hc2, hcr]
  · intro h1 h2 h3
    have hc2 : check_duplicate_by_school_and_city db d.school_name d.city =
        .ok () := by
      simp [check_duplicate_by_school_and_city, h2]
    have hany : (db.applications.any (fun a =>
        decide (lowerStr a.school_name = lowerStr d.school_name) &&
        decide (lowerStr a.city = lowerStr d.city) &&
        decide (a.status ∈ pending_statuses))) = true := by
      rw [List.any_eq_true]
      obtain ⟨a, ha, hn, hc, hs⟩ := h3
      exact ⟨a, ha, by simp [hn, hc, hs]⟩
    have hcr : repository_create db newAppId d now = .error .integrityViolation := by
      simp only [repository_create]
      rw [if_pos (by simpa using hany)]
    simp [submit_application, h1, hc2, hcr]

/-- `baseApp` in the terminal EXPIRED status. -/
def expiredDb : Db := ⟨[{ baseApp with status := .expired }], [], [], []⟩

/-- Witness for the amended C5: an exact-pair resubmission against the
pending store fails with DuplicateApplication; the same submission succeeds
once the earlier application is EXPIRED; and the case-differing pair against
the pending store fails with the integrity error. -/
theorem submit_duplicate_detection_behavior_witness :
    ((submit_application baseDb dExact 100 50 51 52).2 =
        .error .duplicateApplication)
  ∧ ((submit_application expiredDb dExact 100 50 51 52).2 = .ok 50)
  ∧ ((submit_application baseDb cSub 200 60 61 62).2 =
        .error .integrityViolation) :=
  ⟨(submit_duplicate_detection_behavior baseDb dExact 100 50 51 52).1 (by decide),
   (submit_duplicate_detection_behavior expiredDb dExact 100 50 51 52).2.1
     (by decide) (by decide) (by decide),
   (submit_duplicate_detection_behavior baseDb cSub 200 60 61 62).2.2
     (by decide) (by decide) (by decide)⟩

/-! ## C8: resend rate limiting, fail-closed -/

theorem resend_call_ok (db : Db) (r : RedisState) (appId : Nat)
    (app : SchoolApplication) (email : String) (now : Int) (i w : Nat)
    (happ : get_by_id db appId = some app)
    (hmail : lowerStr email = lowerStr (effective_applicant_email app))
    (hst : app.status ∈ valid_resend_statuses)
    (hcnt : ∀ c, rget r now (rlKey appId) = some c → c < 3) :
    ∃ d, resend_verification db (some r) appId email now i w =
        (d, some (rincr_expire r now (rlKey appId)),
         .ok (now + TOKEN_EXPIRY_SECONDS)) ∧
      d.applications = db.applications := by
  cases hg : rget r now (rlKey appId) with
  | none =>
    refine ⟨(create_token (delete_tokens_for_application db appId
        (some (if app.status = .awaiting_applicant_verification
          then TokenType.applicant_verification
          else TokenType.principal_confirmation)))
      i appId (hash_token (.raw w))
      (if app.status = .awaiting_applicant_verification
        then TokenType.applicant_verification
        else TokenType.principal_confirmation)
      (now + TOKEN_EXPIRY_SECONDS) now).1, ?_, rfl⟩
    simp [resend_verification, happ, hmail, hst, check_rate_limit, hg]
  | some c =>
    have hlt : ¬ RESEND_RATE_LIMIT_MAX_REQUESTS ≤ c := by
      simp only [RESEND_RATE_LIMIT_MAX_REQUESTS]
      exact Nat.not_le.mpr (hcnt c hg)
    refine ⟨(create_token (delete_tokens_for_application db appId
        (some (if app.status = .awaiting_applicant_verification
          then TokenType.applicant_verification
          else TokenType.principal_confirmation)))
      i appId (hash_token (.raw w))
      (if app.status = .awaiting_applicant_verification
        then TokenType.applicant_verification
        else TokenType.principal_confirmation)
      (now + TOKEN_EXPIRY_SECONDS) now).1, ?_, rfl⟩
    simp [resend_verification, happ, hmail, hst, check_rate_limit, hg, hlt]

theorem resend_call_limited (db : Db) (r : RedisState) (appId : Nat)
    (app : SchoolApplication) (email : String) (now : Int) (i w : Nat) (c : Nat)
    (happ : get_by_id db appId = some app)
    (hmail : lowerStr email = lowerStr (effective_applicant_email app))
    (hst : app.status ∈ valid_resend_statuses)
    (hg : rget r now (rlKey appId) = some c) (hc : 3 ≤ c) :
    resend_verification db (some r) appId email now i w =
      (db, some r, .error (.rateLimitExceeded
        (max (rttl r now (rlKey appId)) 60))) := by
  have hge : RESEND_RATE_LIMIT_MAX_REQUESTS ≤ c := hc
  simp [resend_verification, happ, hmail, hst, check_rate_limit, hg, hge]

/-- C8: `resend_verification` enforces 3 requests per rolling hour per
application — with four calls inside one hour, the first three succeed and
the fourth fails with RateLimitExceeded carrying a strictly positive
retry-after — and when the rate-limit backend is unavailable (no Redis
client) the whole operation fails with SERVICE_UNAVAILABLE instead of
skipping the check (fail-closed). -/
theorem resend_rate_limit_and_fail_closed
    (db : Db) (r0 : RedisState) (appId : Nat) (app : SchoolApplication)
    (email : String) (t1 t2 t3 t4 : Int) (i1 i2 i3 i4 w1 w2 w3 w4 : Nat)
    (happ : get_by_id db appId = some app)
    (hmail : lowerStr email = lowerStr (effective_applicant_email app))
    (hst : app.status ∈ valid_resend_statuses)
    (hkey : rget r0 t1 (rlKey appId) = none)
    (h2 : t2 < t1 + 3600) (h3 : t3 < t2 + 3600) (h4 : t4 < t3 + 3600) :
    let c1 := resend_verification db (some r0) appId email t1 i1 w1
    let c2 := resend_verification c1.1 c1.2.1 appId email t2 i2 w2
    let c3 := resend_verification c2.1 c2.2.1 appId email t3 i3 w3
    let c4 := resend_verification c3.1 c3.2.1 appId email t4 i4 w4
    (∃ v, c1.2.2 = .ok v) ∧ (∃ v, c2.2.2 = .ok v) ∧ (∃ v, c3.2.2 = .ok v) ∧
    (∃ ra, c4.2.2 = .error (.rateLimitExceeded ra) ∧ 0 < ra) ∧
    (resend_verification db none appId email t1 i1 w1).2.2 =
      .error .serviceUnavailable := by
  intro c1 c2 c3 c4
  obtain ⟨d1, hc1, hd1⟩ := resend_call_ok db r0 appId app email t1 i1 w1
    happ hmail hst (fun c hcg => by rw [hkey] at hcg; cases hcg)
  have happ1 : get_by_id d1 appId = some app := by
    unfold get_by_id; rw [hd1]; exact happ
  have hK1 : (rincr_expire r0 t1 (rlKey appId)) (rlKey appId) =
      some (1, t1 + 3600) := by
    simp [rincr_expire, hkey]
  have hget2 : rget (rincr_expire r0 t1 (rlKey appId)) t2 (rlKey appId) =
      some 1 := by
    simp [rget, hK1, h2]
  obtain ⟨d2, hc2, hd2⟩ := resend_call_ok d1 (rincr_expire r0 t1 (rlKey appId))
    appId app email t2 i2 w2 happ1 hmail hst
    (fun c hcg => by rw [hget2] at hcg; cases hcg; decide)
  have happ2 : get_by_id d2 appId = some app := by
    unfold get_by_id; rw [hd2]; exact happ1
  have hK2 : (rincr_expire (rincr_expire r0 t1 (rlKey appId)) t2 (rlKey appId))
      (rlKey appId) = some (2, t2 + 3600) := by
    simp [rincr_expire, hget2]
  have hget3 : rget (rincr_expire (rincr_expire r0 t1 (rlKey appId)) t2
      (rlKey appId)) t3 (rlKey appId) = some 2 := by
    simp [rget, hK2, h3]
  obtain ⟨d3, hc3, hd3⟩ := resend_call_ok d2
    (rincr_expire (rincr_expire r0 t1 (rlKey appId)) t2 (rlKey appId))
    appId app email t3 i3 w3 happ2 hmail hst
    (fun c hcg => by rw [hget3] at hcg; cases hcg; decide)
  have happ3 : get_by_id d3 appId = some app := by
    unfold get_by_id; rw [hd3]; exact happ2
  have hK3 : (rincr_expire (rincr_expire (rincr_expire r0 t1 (rlKey appId)) t2
      (rlKey appId)) t3 (rlKey appId)) (rlKey appId) = some (3, t3 + 3600) := by
    simp [rincr_expire, hget3]
  have hget4 : rget (rincr_expire (rincr_expire (rincr_expire r0 t1
      (rlKey appId)) t2 (rlKey appId)) t3 (rlKey appId)) t4 (rlKey appId) =
      some 3 := by
    simp [rget, hK3, h4]
  have hc4 := resend_call_limited d3
    (rincr_expire (rincr_expire (rincr_expire r0 t1 (rlKey appId)) t2
      (rlKey appId)) t3 (rlKey appId))
    appId app email t4 i4 w4 3 happ3 hmail hst hget4 (by decide)
  have e1 : c1 = (d1, some (rincr_expire r0 t1 (rlKey appId)),
      .ok (t1 + TOKEN_EXPIRY_SECONDS)) := hc1
  have e2 : c2 = (d2, some (rincr_expire (rincr_expire r0 t1 (rlKey appId)) t2
      (rlKey appId)), .ok (t2 + TOKEN_EXPIRY_SECONDS)) := by
    show resend_verification c1.1 c1.2.1 appId email t2 i2 w2 = _
    rw [e1]; exact hc2
  have e3 : c3 = (d3, some (rincr_expire (rincr_expire (rincr_expire r0 t1
      (rlKey appId)) t2 (rlKey appId)) t3 (rlKey appId)),
      .ok (t3 + TOKEN_EXPIRY_SECONDS)) := by
    show resend_verification c2.1 c2.2.1 appId email t3 i3 w3 = _
    rw [e2]; exact hc3
  have e4 : c4 = (d3, some (rincr_expire (rincr_expire (rincr_expire r0 t1
      (rlKey appId)) t2 (rlKey appId)) t3 (rlKey appId)),
      .error (.rateLimitExceeded (max (rttl (rincr_expire (rincr_expire
        (rincr_expire r0 t1 (rlKey appId)) t2 (rlKey appId)) t3 (rlKey appId))
        t4 (rlKey appId)) 60))) := by
    show resend_verification c3.1 c3.2.1 appId email t4 i4 w4 = _
    rw [e3]; exact hc4
  refine ⟨⟨t1 + TOKEN_EXPIRY_SECONDS, by rw [e1]⟩,
    ⟨t2 + TOKEN_EXPIRY_SECONDS, by rw [e2]⟩,
    ⟨t3 + TOKEN_EXPIRY_SECONDS, by rw [e3]⟩,
    ⟨max (rttl (rincr_expire (rincr_expire (rincr_expire r0 t1 (rlKey appId))
      t2 (rlKey appId)) t3 (rlKey appId)) t4 (rlKey appId)) 60,
      by rw [e4], lt_of_lt_of_le (by decide) (le_max_right _ 60)⟩, ?_⟩
  simp [resend_verification, happ, hmail, hst]

/-- An application of `baseDb` in a resendable status, bound to its
principal email for the C8 witness. -/
def resendDb : Db := ⟨[verAppA], [], [], []⟩

/-- Witness for C8 at a concrete store and an initially empty Redis: three
calls succeed, the fourth is rate-limited with a positive retry-after, and a
missing Redis client fails closed. -/
theorem resend_rate_limit_and_fail_closed_witness :
    (let c1 := resend_verification resendDb (some (fun _ => none)) 1
       ("ada@greenfield.example") 100 11 21
     let c2 := resend_verification c1.1 c1.2.1 1 ("ada@greenfield.example")
       200 12 22
     let c3 := resend_verification c2.1 c2.2.1 1 ("ada@greenfield.example")
       300 13 23
     let c4 := resend_verification c3.1 c3.2.1 1 ("ada@greenfield.example")
       400 14 24
     (∃ v, c1.2.2 = .ok v) ∧ (∃ v, c2.2.2 = .ok v) ∧ (∃ v, c3.2.2 = .ok v) ∧
     (∃ ra, c4.2.2 = .error (.rateLimitExceeded ra) ∧ 0 < ra) ∧
     (resend_verification resendDb none 1 ("ada@greenfield.example")
        100 11 21).2.2 = .error .serviceUnavailable) :=
  resend_rate_limit_and_fail_closed resendDb (fun _ => none) 1 verAppA
    ("ada@greenfield.example") 100 200 300 400 11 12 13 14 21 22 23 24
    (by decide) (by decide) (by decide) rfl (by decide) (by decide) (by decide)

/-! ## C3: atomicity of admin approval -/

theorem noteAndClose_fresh (db : Db) (appId adminId : Nat) (note : String)
    (now : Int) :
    (noteAndClose ⟨db, db, false⟩ appId adminId note now).committed.schools =
      db.schools ∧
    (noteAndClose ⟨db, db, false⟩ appId adminId note now).committed.users =
      db.users ∧
    (get_by_id (noteAndClose ⟨db, db, false⟩ appId adminId note now).committed
        appId).map (fun a => a.status) =
      (get_by_id db appId).map (fun a => a.status) := by
  unfold noteAndClose
  cases hg2 : get_by_id db appId with
  | none =>
    simp [add_internal_note, hg2, Session.rollbackClose]
  | some app0 =>
    simp only [add_internal_note, hg2, Bool.false_eq_true, if_false]
    refine ⟨rfl, rfl, ?_⟩
    have hid0 : app0.id = appId := get_by_id_some_id hg2
    have hsa := @get_by_id_setApplication_self db appId app0
      { app0 with internal_notes := some (app0.internal_notes.getD [] ++ [⟨note, adminId, now⟩]) } hg2 hid0
    rw [hsa]
    simp

theorem noteAndClose_aborted (s : Session) (appId adminId : Nat)
    (note : String) (now : Int) :
    noteAndClose s.abort appId adminId note now =
      ⟨s.committed, s.committed, false⟩ := by
  unfold noteAndClose Session.abort Session.rollbackClose
  simp

theorem update_status_approved_cases {dbx : Db} {appId : Nat}
    {app : SchoolApplication} (ex : UpdateFields)
    (hga : get_by_id dbx appId = some app) :
    (∃ p a2, update_status dbx appId .approved ex = .ok (p, a2)) ∨
    update_status dbx appId .approved ex =
      .error (.invalidStatusTransition app.status .approved
        (VALID_STATUS_TRANSITIONS app.status)) := by
  by_cases hc : ApplicationStatus.approved ≠ app.status ∧
      ApplicationStatus.approved ∉ VALID_STATUS_TRANSITIONS app.status
  · right
    simp only [update_status, hga]
    rw [if_pos hc]
  · left
    have hok : update_status dbx appId .approved ex =
        .ok (setApplication dbx (applyUpdates ex { app with status := .approved }),
             applyUpdates ex { app with status := .approved }) := by
      simp only [update_status, hga]
      rw [if_neg hc]
    exact ⟨_, _, hok⟩

/-- C3: the atomic unit of `admin_approve_application`. First, whenever the
operation fails, the committed store shows none of the unit: the schools
table, the users table and the status of the application are all unchanged
(only a best-effort internal note may have been recorded). Second, in the
concrete scenario of the claim — a PENDING_REVIEW application whose
designated-admin email already belongs to an existing user — the operation
fails with SchoolProvisioningError, the status stays PENDING_REVIEW and no
school or user row is created. -/
theorem update_status_err_inv {dbx : Db} {appId : Nat}
    {st : ApplicationStatus} {ex : UpdateFields} {e : AppError}
    (h : update_status dbx appId st ex = .error e) :
    e = .applicationNotFound ∨ ∃ c a, e = .invalidStatusTransition c st a := by
  cases hj : get_by_id dbx appId with
  | none =>
    simp only [update_status, hj, Except.error.injEq] at h
    exact Or.inl h.symm
  | some a =>
    simp only [update_status, hj] at h
    by_cases hc : st ≠ a.status ∧ st ∉ VALID_STATUS_TRANSITIONS a.status
    · rw [if_pos hc] at h
      simp only [Except.error.injEq] at h
      exact Or.inr ⟨a.status, _, h.symm⟩
    · rw [if_neg hc] at h
      simp at h

theorem update_status_notFound_inv {dbx : Db} {appId : Nat}
    {st : ApplicationStatus} {ex : UpdateFields}
    (h : update_status dbx appId st ex = .error .applicationNotFound) :
    get_by_id dbx appId = none := by
  cases hj : get_by_id dbx appId with
  | none => rfl
  | some a =>
    simp only [update_status, hj] at h
    by_cases hc : st ≠ a.status ∧ st ∉ VALID_STATUS_TRANSITIONS a.status
    · rw [if_pos hc] at h
      simp at h
    · rw [if_neg hc] at h
      simp at h

/-- C3: the atomic unit of `admin_approve_application`. First, whenever the
operation fails, the committed store shows none of the unit: the schools
table, the users table and the status of the application are all unchanged
(only a best-effort internal note may have been recorded). Second, in the
concrete scenario of the claim — a PENDING_REVIEW application whose
designated-admin email already belongs to an existing user — the operation
fails with SchoolProvisioningError, the status stays PENDING_REVIEW and no
school or user row is created. -/
theorem admin_approve_atomicity
    (db : Db) (o : ApproveOracle) (appId adminId : Nat) (now : Int)
    (newSchoolId newUserId : Nat) (pwHash : String) :
    (∀ e s2, admin_approve_application ⟨db, db, false⟩ o appId adminId now
        newSchoolId newUserId pwHash = (s2, .error e) →
      s2.committed.schools = db.schools ∧ s2.committed.users = db.users ∧
      (get_by_id s2.committed appId).map (fun a => a.status) =
        (get_by_id db appId).map (fun a => a.status))
  ∧ (∀ app u, get_by_id db appId = some app → app.status = .pending_review →
      user_get_by_email db (designated_admin app).2 = some u →
      ∃ s2, admin_approve_application ⟨db, db, false⟩ o appId adminId now
          newSchoolId newUserId pwHash = (s2, .error .schoolProvisioning) ∧
        s2.committed.schools = db.schools ∧ s2.committed.users = db.users ∧
        (get_by_id s2.committed appId).map (fun a => a.status) =
          some .pending_review) := by
  constructor
  · intro e s2 h
    cases hga : get_by_id db appId with
    | none =>
      simp only [admin_approve_application, hga, Prod.mk.injEq] at h
      rw [← h.1]
      exact ⟨rfl, rfl, by simp [hga]⟩
    | some app =>
      by_cases hdec : app.status ∈ DECIDABLE_STATUSES
      case neg =>
        simp only [admin_approve_application, hga] at h
        rw [if_pos hdec] at h
        simp only [Prod.mk.injEq] at h
        rw [← h.1]
        exact ⟨rfl, rfl, by simp [hga]⟩
      case pos =>
        simp only [admin_approve_application, hga] at h
        rw [if_neg (not_not_intro hdec)] at h
        split at h
        · -- an account with the designated email already exists
          simp only [Prod.mk.injEq] at h
          rw [← h.1]
          obtain ⟨n1, n2, n3⟩ :=
            noteAndClose_fresh db appId adminId provisioningFailedNote now
          exact ⟨n1, n2, by rw [n3, hga]⟩
        · split at h
          · -- school flush fails, transaction aborted
            simp only [Prod.mk.injEq] at h
            rw [← h.1, noteAndClose_aborted]
            exact ⟨rfl, rfl, by simp [hga]⟩
          · split at h
            · -- user flush fails, transaction aborted
              simp only [Prod.mk.injEq] at h
              rw [← h.1, noteAndClose_aborted]
              exact ⟨rfl, rfl, by simp [hga]⟩
            · split at h
              · -- invalid transition: dedicated handler, rollback
                simp only [Prod.mk.injEq] at h
                rw [← h.1]
                refine ⟨?_, ?_, ?_⟩ <;> simp [Session.rollbackClose, hga]
              · -- a generic update_status error is impossible here
                rename_i heq
                rcases update_status_err_inv heq with hnf | ⟨c, al, hinv⟩
                · subst hnf
                  have hnone := update_status_notFound_inv heq
                  exact absurd (hnone.symm.trans hga) (by simp)
                · subst hinv
                  rename_i hne
                  exact absurd rfl (hne c .approved al)
              · -- the transition succeeded; only the final commit can fail
                split at h
                · simp only [Prod.mk.injEq] at h
                  rw [← h.1, noteAndClose_aborted]
                  exact ⟨rfl, rfl, by simp [hga]⟩
                · simp only [Prod.mk.injEq] at h
                  exact absurd h.2 (by simp)
  · intro app u hga hst hue
    have hdec : app.status ∈ DECIDABLE_STATUSES := by rw [hst]; decide
    have hrun : admin_approve_application ⟨db, db, false⟩ o appId adminId now
        newSchoolId newUserId pwHash =
        (noteAndClose ⟨db, db, false⟩ appId adminId provisioningFailedNote now,
         .error .schoolProvisioning) := by
      simp only [admin_approve_application, hga]
      rw [if_neg (not_not_intro hdec), hue]
    obtain ⟨h1, h2, h3⟩ := noteAndClose_fresh db appId adminId
      provisioningFailedNote now
    refine ⟨_, hrun, h1, h2, ?_⟩
    rw [h3, hga]
    simp [hst]

/-- A user account already holding the designated-admin email of
`baseApp`. -/
def existingUser : User :=
  ⟨5, "ada@greenfield.example", "hash0", "Ada", "Onyems",
   UserRole.school_admin, none, true, true, false⟩

/-- The store of the C3 witness: a PENDING_REVIEW application whose
designated-admin email already belongs to `existingUser`. -/
def approveDb : Db := ⟨[baseApp], [], [], [existingUser]⟩

/-- An oracle with no injected infrastructure failures. -/
def okOracle : ApproveOracle := ⟨false, false, false, false⟩

/-- Witness for C3: approving `baseApp` against `approveDb` fails with
SchoolProvisioningError and commits no school, no user and no status
change. -/
theorem admin_approve_atomicity_witness :
    ∃ s2, admin_approve_application ⟨approveDb, approveDb, false⟩ okOracle 1 77
        1000 10 11 "pw" = (s2, .error .schoolProvisioning) ∧
      s2.committed.schools = approveDb.schools ∧
      s2.committed.users = approveDb.users ∧
      (get_by_id s2.committed 1).map (fun a => a.status) =
        some .pending_review :=
  (admin_approve_atomicity approveDb okOracle 1 77 1000 10 11 "pw").2
    baseApp existingUser (by decide) (by decide) (by decide)

/-! ## C7: reminder idempotency across two runs -/

/-- At most one unused PRINCIPAL_CONFIRMATION token exists per application
(the data-model invariant: resend deletes prior tokens before issuing, and
`verify_applicant` issues the single principal token exactly once). -/
def atMostOnePrincipalToken (db : Db) : Prop :=
  ∀ i, (db.tokens.filter (fun t => decide (t.application_id = i) &&
    decide (t.token_type = TokenType.principal_confirmation) &&
    decide (t.used_at = none))).length ≤ 1

/-- One run of the reminder job only ever rewrites a row by stamping
`reminder_sent_at := some t`. -/
def ReminderEvol (d d2 : Db) (t : Int) : Prop :=
  ∀ i, get_by_id d2 i = get_by_id d i ∨
    ∃ a, get_by_id d i = some a ∧
      get_by_id d2 i = some { a with reminder_sent_at := some t }

theorem reminderEvol_refl (d : Db) (t : Int) : ReminderEvol d d t :=
  fun _ => Or.inl rfl

theorem reminderEvol_trans {d1 d2 d3 : Db} {t : Int}
    (h12 : ReminderEvol d1 d2 t) (h23 : ReminderEvol d2 d3 t) :
    ReminderEvol d1 d3 t := by
  intro i
  rcases h23 i with h | ⟨b, hb, hb2⟩
  · rw [h]; exact h12 i
  · rcases h12 i with h | ⟨a, ha, ha2⟩
    · rw [h] at hb
      exact Or.inr ⟨b, hb, hb2⟩
    · rw [ha2] at hb
      cases hb
      exact Or.inr ⟨a, ha, hb2⟩

theorem mark_reminder_sent_sets {d : Db} {i : Nat} {t : Int}
    {a : SchoolApplication} (h : get_by_id d i = some a) :
    get_by_id (mark_reminder_sent d i t) i =
      some { a with reminder_sent_at := some t } := by
  have hid : a.id = i := get_by_id_some_id h
  simp only [mark_reminder_sent, h]
  exact get_by_id_setApplication_self h hid

theorem mark_reminder_sent_get_ne {d : Db} {j i : Nat} {t : Int} (hne : j ≠ i) :
    get_by_id (mark_reminder_sent d j t) i = get_by_id d i := by
  cases hj : get_by_id d j with
  | none => simp only [mark_reminder_sent, hj]
  | some a =>
    simp only [mark_reminder_sent, hj]
    exact get_by_id_setApplication_ne (by rw [get_by_id_some_id hj]; exact hne)

theorem mark_reminder_sent_ids (d : Db) (j : Nat) (t : Int) :
    (mark_reminder_sent d j t).applications.map (fun x => x.id) =
      d.applications.map (fun x => x.id) := by
  cases hj : get_by_id d j with
  | none => simp only [mark_reminder_sent, hj]
  | some a =>
    simp only [mark_reminder_sent, hj, setApplication]
    exact replaceApp_map_id d.applications _

theorem mark_evol (d : Db) (j : Nat) (t : Int) :
    ReminderEvol d (mark_reminder_sent d j t) t := by
  intro i
  by_cases hji : j = i
  · subst hji
    cases hj : get_by_id d j with
    | none => left; simp only [mark_reminder_sent, hj]
    | some a => exact Or.inr ⟨a, rfl, mark_reminder_sent_sets hj⟩
  · left; exact mark_reminder_sent_get_ne hji

theorem marked_mono {d d2 : Db} {t : Int} {i : Nat}
    (hev : ReminderEvol d d2 t)
    (hm : ∃ a2, get_by_id d i = some a2 ∧ a2.reminder_sent_at = some t) :
    ∃ a2, get_by_id d2 i = some a2 ∧ a2.reminder_sent_at = some t := by
  obtain ⟨a2, ha, har⟩ := hm
  rcases hev i with h | ⟨a, ha2, ha3⟩
  · exact ⟨a2, h.trans ha, har⟩
  · exact ⟨_, ha3, rfl⟩

theorem get_isSome_of_id_mem {d : Db} {i : Nat}
    (h : i ∈ d.applications.map (fun x => x.id)) :
    ∃ a, get_by_id d i = some a := by
  obtain ⟨a, ha, hai⟩ := List.mem_map.mp h
  have : ∃ x ∈ d.applications, (fun x => decide (x.id = i)) x := by
    exact ⟨a, ha, decide_eq_true hai⟩
  obtain ⟨b, hb⟩ := Option.isSome_iff_exists.mp (List.find?_isSome.mpr this)
  exact ⟨b, hb⟩

theorem qa_mem {d : Db} {thr : Int} {st : ApplicationStatus}
    {a : SchoolApplication} (h : a ∈ get_applications_needing_reminder d thr st) :
    a ∈ d.applications ∧ a.status = st ∧ a.submitted_at < thr ∧
      a.reminder_sent_at = none := by
  obtain ⟨h1, h2⟩ := List.mem_filter.mp h
  simp only [Bool.and_eq_true, decide_eq_true_eq] at h2
  exact ⟨h1, h2.1.1, h2.1.2, h2.2⟩

theorem mem_joinTokens_appid {d : Db} {p : SchoolApplication × VerificationToken}
    (h : p ∈ joinTokens d) : p.2.application_id = p.1.id := by
  obtain ⟨a, _, hp⟩ := List.mem_flatMap.mp h
  obtain ⟨t, ht, he⟩ := List.mem_map.mp hp
  subst he
  simpa using (List.mem_filter.mp ht).2

theorem qb_mem {d : Db} {thr now : Int}
    {p : SchoolApplication × VerificationToken}
    (h : p ∈ get_principal_tokens_needing_reminder d thr now) :
    p.1 ∈ d.applications ∧ p.2 ∈ d.tokens ∧ p.2.application_id = p.1.id ∧
    p.1.status = .awaiting_principal_confirmation ∧
    p.1.reminder_sent_at = none ∧
    p.2.token_type = .principal_confirmation ∧ p.2.used_at = none := by
  obtain ⟨h1, h2⟩ := List.mem_filter.mp h
  obtain ⟨hma, hmt⟩ := mem_joinTokens h1
  have hap := mem_joinTokens_appid h1
  simp only [Bool.and_eq_true, decide_eq_true_eq] at h2
  exact ⟨hma, hmt, hap, h2.1.1.1.1.1, h2.1.1.1.1.2, h2.1.1.1.2, h2.1.2⟩

theorem step1_db (acc : Db × List SentReminder) (a0 : SchoolApplication)
    (now : Int) (o : Nat → Bool) :
    (process_applicant_verification_reminder acc a0 now o).1 = acc.1 ∨
    (process_applicant_verification_reminder acc a0 now o).1 =
      mark_reminder_sent acc.1 a0.id now := by
  cases hv : get_valid_token_for_application acc.1 a0.id
      .applicant_verification now with
  | none => left; simp [process_applicant_verification_reminder, hv]
  | some tk => right; simp [process_applicant_verification_reminder, hv]

theorem step1_sent (acc : Db × List SentReminder) (a0 : SchoolApplication)
    (now : Int) (o : Nat → Bool) :
    (process_applicant_verification_reminder acc a0 now o).2 = acc.2 ∨
    ∃ e : SentReminder, (process_applicant_verification_reminder acc a0 now o).2 =
      acc.2 ++ [e] ∧ e.application_id = a0.id := by
  cases hv : get_valid_token_for_application acc.1 a0.id
      .applicant_verification now with
  | none => left; simp [process_applicant_verification_reminder, hv]
  | some tk =>
    right
    exact ⟨⟨a0.id, tk.token, o a0.id⟩,
      by simp [process_applicant_verification_reminder, hv], rfl⟩

theorem fold1_ids (l : List SchoolApplication) (now : Int) (o : Nat → Bool)
    (acc : Db × List SentReminder) :
    ((l.foldl (fun acc a => process_applicant_verification_reminder acc a now o)
      acc).1).applications.map (fun x => x.id) =
      acc.1.applications.map (fun x => x.id) := by
  induction l generalizing acc with
  | nil => rfl
  | cons hd tl ih =>
    simp only [List.foldl_cons]
    rw [ih]
    rcases step1_db acc hd now o with h | h <;> rw [h]
    exact mark_reminder_sent_ids acc.1 hd.id now

theorem fold1_evol (l : List SchoolApplication) (now : Int) (o : Nat → Bool)
    (acc : Db × List SentReminder) :
    ReminderEvol acc.1
      ((l.foldl (fun acc a => process_applicant_verification_reminder acc a now o)
        acc).1) now := by
  induction l generalizing acc with
  | nil => exact reminderEvol_refl acc.1 now
  | cons hd tl ih =>
    simp only [List.foldl_cons]
    refine reminderEvol_trans ?_ (ih _)
    rcases step1_db acc hd now o with h | h <;> rw [h]
    · exact reminderEvol_refl _ _
    · exact mark_evol _ _ _

theorem fold1_sent_sub (l : List SchoolApplication) (now : Int) (o : Nat → Bool)
    (acc : Db × List SentReminder) :
    ∃ l2, (l.foldl (fun acc a => process_applicant_verification_reminder acc a now o)
        acc).2 = acc.2 ++ l2 ∧
      (l2.map (fun r => r.application_id)).Sublist (l.map (fun x => x.id)) := by
  induction l generalizing acc with
  | nil => exact ⟨[], by simp, by simp⟩
  | cons hd tl ih =>
    simp only [List.foldl_cons]
    obtain ⟨l2, h2, hs⟩ := ih (process_applicant_verification_reminder acc hd now o)
    rcases step1_sent acc hd now o with h | ⟨e, he, hei⟩
    · rw [h] at h2
      exact ⟨l2, h2, hs.cons hd.id⟩
    · rw [he] at h2
      refine ⟨e :: l2, by rw [h2]; simp, ?_⟩
      simp only [List.map_cons, hei]
      exact hs.cons₂ hd.id

theorem fold1_marked (l : List SchoolApplication) (now : Int) (o : Nat → Bool)
    (I : List Nat) (acc : Db × List SentReminder)
    (hl : ∀ a0 ∈ l, a0.id ∈ I)
    (hai : acc.1.applications.map (fun x => x.id) = I)
    (hm : ∀ r ∈ acc.2, ∃ a2, get_by_id acc.1 r.application_id = some a2 ∧
      a2.reminder_sent_at = some now) :
    ∀ r ∈ (l.foldl (fun acc a => process_applicant_verification_reminder acc a now o)
        acc).2,
      ∃ a2, get_by_id
          ((l.foldl (fun acc a => process_applicant_verification_reminder acc a now o)
            acc).1) r.application_id = some a2 ∧
        a2.reminder_sent_at = some now := by
  induction l generalizing acc with
  | nil => exact hm
  | cons hd tl ih =>
    simp only [List.foldl_cons]
    refine ih _ (fun a0 ha0 => hl a0 (List.mem_cons_of_mem hd ha0)) ?_ ?_
    · rw [← hai]
      rcases step1_db acc hd now o with h | h <;> rw [h]
      exact mark_reminder_sent_ids acc.1 hd.id now
    · intro r hr
      cases hv : get_valid_token_for_application acc.1 hd.id
          .applicant_verification now with
      | none =>
        have hstep : process_applicant_verification_reminder acc hd now o = acc := by
          simp [process_applicant_verification_reminder, hv]
        rw [hstep] at hr ⊢
        exact hm r hr
      | some tk =>
        have hstep : process_applicant_verification_reminder acc hd now o =
            (mark_reminder_sent acc.1 hd.id now,
             acc.2 ++ [⟨hd.id, tk.token, o hd.id⟩]) := by
          simp [process_applicant_verification_reminder, hv]
        rw [hstep] at hr ⊢
        rcases List.mem_append.mp hr with h1 | h1
        · exact marked_mono (mark_evol acc.1 hd.id now) (hm r h1)
        · have he : r = ⟨hd.id, tk.token, o hd.id⟩ := by simpa using h1
          subst he
          obtain ⟨b, hb⟩ := get_isSome_of_id_mem
            (by rw [hai]; exact hl hd (List.mem_cons_self hd tl))
          exact ⟨_, mark_reminder_sent_sets hb, rfl⟩

theorem fold2_sent (L : List (SchoolApplication × VerificationToken))
    (now : Int) (o : Nat → Bool) (acc : Db × List SentReminder) :
    (L.foldl (fun acc p => process_principal_confirmation_reminder acc p now o)
        acc).2 =
      acc.2 ++ L.map (fun p => (⟨p.1.id, p.2.token, o p.1.id⟩ : SentReminder)) := by
  induction L generalizing acc with
  | nil => simp
  | cons hd tl ih =>
    simp only [List.foldl_cons, List.map_cons]
    rw [ih]
    simp [process_principal_confirmation_reminder]

theorem fold2_ids (L : List (SchoolApplication × VerificationToken))
    (now : Int) (o : Nat → Bool) (acc : Db × List SentReminder) :
    ((L.foldl (fun acc p => process_principal_confirmation_reminder acc p now o)
      acc).1).applications.map (fun x => x.id) =
      acc.1.applications.map (fun x => x.id) := by
  induction L generalizing acc with
  | nil => rfl
  | cons hd tl ih =>
    simp only [List.foldl_cons]
    rw [ih]
    simp only [process_principal_confirmation_reminder]
    exact mark_reminder_sent_ids acc.1 hd.1.id now

theorem fold2_evol (L : List (SchoolApplication × VerificationToken))
    (now : Int) (o : Nat → Bool) (acc : Db × List SentReminder) :
    ReminderEvol acc.1
      ((L.foldl (fun acc p => process_principal_confirmation_reminder acc p now o)
        acc).1) now := by
  induction L generalizing acc with
  | nil => exact reminderEvol_refl acc.1 now
  | cons hd tl ih =>
    simp only [List.foldl_cons]
    refine reminderEvol_trans ?_ (ih _)
    simp only [process_principal_confirmation_reminder]
    exact mark_evol _ _ _

theorem fold2_marked (L : List (SchoolApplication × VerificationToken))
    (now : Int) (o : Nat → Bool) (I : List Nat) (acc : Db × List SentReminder)
    (hl : ∀ p ∈ L, p.1.id ∈ I)
    (hai : acc.1.applications.map (fun x => x.id) = I)
    (hm : ∀ r ∈ acc.2, ∃ a2, get_by_id acc.1 r.application_id = some a2 ∧
      a2.reminder_sent_at = some now) :
    ∀ r ∈ (L.foldl (fun acc p => process_principal_confirmation_reminder acc p now o)
        acc).2,
      ∃ a2, get_by_id
          ((L.foldl (fun acc p => process_principal_confirmation_reminder acc p now o)
            acc).1) r.application_id = some a2 ∧
        a2.reminder_sent_at = some now := by
  induction L generalizing acc with
  | nil => exact hm
  | cons hd tl ih =>
    simp only [List.foldl_cons]
    refine ih _ (fun p hp => hl p (List.mem_cons_of_mem hd hp)) ?_ ?_
    · rw [← hai]
      simp only [process_principal_confirmation_reminder]
      exact mark_reminder_sent_ids acc.1 hd.1.id now
    · intro r hr
      simp only [process_principal_confirmation_reminder] at hr ⊢
      rcases List.mem_append.mp hr with h1 | h1
      · exact marked_mono (mark_evol acc.1 hd.1.id now) (hm r h1)
      · have he : r = ⟨hd.1.id, hd.2.token, o hd.1.id⟩ := by simpa using h1
        subst he
        obtain ⟨b, hb⟩ := get_isSome_of_id_mem
          (by rw [hai]; exact hl hd (List.mem_cons_self hd tl))
        exact ⟨_, mark_reminder_sent_sets hb, rfl⟩

theorem filter_flatMap {α β : Type} (l : List α) (f : α → List β) (p : β → Bool) :
    (l.flatMap f).filter p = l.flatMap (fun a => (f a).filter p) := by
  induction l with
  | nil => rfl
  | cons hd tl ih => simp [List.flatMap_cons, List.filter_append, ih]

theorem filter_map_comm {α β : Type} (f : α → β) (p : β → Bool) (l : List α) :
    (l.map f).filter p = (l.filter (fun x => p (f x))).map f := by
  induction l with
  | nil => rfl
  | cons hd tl ih =>
    by_cases h : p (f hd) = true <;> simp [List.filter_cons, h, ih]

theorem filter_filter_conj {α : Type} (p q : α → Bool) (l : List α) :
    (l.filter p).filter q = l.filter (fun x => p x && q x) := by
  induction l with
  | nil => rfl
  | cons hd tl ih =>
    by_cases hp : p hd = true <;> by_cases hq : q hd = true <;>
      simp [List.filter_cons, hp, hq, ih]

theorem length_filter_mono {α : Type} {p q : α → Bool} (l : List α)
    (h : ∀ x ∈ l, p x = true → q x = true) :
    (l.filter p).length ≤ (l.filter q).length := by
  induction l with
  | nil => exact Nat.le_refl 0
  | cons hd tl ih =>
    have ih2 := ih (fun x hx hp => h x (List.mem_cons_of_mem hd hx) hp)
    by_cases hp : p hd = true
    · have hq := h hd (List.mem_cons_self hd tl) hp
      simp only [List.filter_cons, hp, hq, if_true, List.length_cons]
      exact Nat.succ_le_succ ih2
    · by_cases hq : q hd = true
      · simp only [List.filter_cons, hp, hq, if_true, if_false, List.length_cons]
        exact Nat.le_succ_of_le ih2
      · simp only [List.filter_cons, hp, hq, if_false]
        exact ih2

theorem nodup_map_fst_id_flatMap {l : List SchoolApplication}
    (hids : (l.map (fun x => x.id)).Nodup)
    (g : SchoolApplication → List (SchoolApplication × VerificationToken))
    (hlen : ∀ a, (g a).length ≤ 1)
    (hfst : ∀ a, ∀ p ∈ g a, p.1 = a) :
    ((l.flatMap g).map (fun p => p.1.id)).Nodup := by
  induction l with
  | nil => simp
  | cons hd tl ih =>
    simp only [List.flatMap_cons, List.map_append]
    simp only [List.map_cons, List.nodup_cons] at hids
    refine List.Nodup.append ?_ (ih hids.2) ?_
    · have hle := hlen hd
      cases hg : g hd with
      | nil => simp
      | cons p ps =>
        cases ps with
        | nil => simp
        | cons q qs => rw [hg] at hle; simp at hle
    · intro x hx1 hx2
      obtain ⟨p, hp, he⟩ := List.mem_map.mp hx1
      rw [hfst hd p hp] at he
      obtain ⟨q, hq, he2⟩ := List.mem_map.mp hx2
      obtain ⟨b, hb, hqb⟩ := List.mem_flatMap.mp hq
      rw [hfst b q hqb] at he2
      exact hids.1 (he ▸ he2 ▸ List.mem_map_of_mem (fun x => x.id) hb)

theorem qb_ids_nodup (d : Db) (thr now : Int)
    (hids : (d.applications.map (fun x => x.id)).Nodup)
    (htok : atMostOnePrincipalToken d) :
    ((get_principal_tokens_needing_reminder d thr now).map
      (fun p => p.1.id)).Nodup := by
  rw [get_principal_tokens_needing_reminder, joinTokens, filter_flatMap]
  refine nodup_map_fst_id_flatMap hids _ ?_ ?_
  · intro a
    rw [filter_map_comm, List.length_map, filter_filter_conj]
    refine Nat.le_trans (length_filter_mono d.tokens ?_) (htok a.id)
    intro t ht hpt
    simp only [Bool.and_eq_true, decide_eq_true_eq] at hpt ⊢
    exact ⟨⟨hpt.1, hpt.2.1.1.1.2⟩, hpt.2.1.2⟩
  · intro a p hp
    have hm := (List.mem_filter.mp hp).1
    obtain ⟨t, _, he⟩ := List.mem_map.mp hm
    rw [← he]

theorem send_reminders_run_core (d : Db) (now thr : Int) (o : Nat → Bool)
    (qa : List SchoolApplication) (r1 : Db × List SentReminder)
    (L : List (SchoolApplication × VerificationToken))
    (hqa : qa = get_applications_needing_reminder d thr
      .awaiting_applicant_verification)
    (hr1 : r1 = qa.foldl
      (fun acc a => process_applicant_verification_reminder acc a now o) (d, []))
    (hL : L = get_principal_tokens_needing_reminder r1.1 thr now)
    (hids : (d.applications.map (fun x => x.id)).Nodup)
    (htok : atMostOnePrincipalToken d) :
    ((L.foldl (fun acc p => process_principal_confirmation_reminder acc p now o)
        r1).1.applications.map (fun x => x.id) =
      d.applications.map (fun x => x.id)) ∧
    ((L.foldl (fun acc p => process_principal_confirmation_reminder acc p now o)
        r1).1.tokens = d.tokens) ∧
    ReminderEvol d
      ((L.foldl (fun acc p => process_principal_confirmation_reminder acc p now o)
        r1).1) now ∧
    (((L.foldl (fun acc p => process_principal_confirmation_reminder acc p now o)
        r1).2.map (fun r => r.application_id)).Nodup) ∧
    (∀ r ∈ (L.foldl
        (fun acc p => process_principal_confirmation_reminder acc p now o) r1).2,
      ∃ a, get_by_id d r.application_id = some a ∧ a.reminder_sent_at = none) ∧
    (∀ r ∈ (L.foldl
        (fun acc p => process_principal_confirmation_reminder acc p now o) r1).2,
      ∃ a2, get_by_id
          ((L.foldl
            (fun acc p => process_principal_confirmation_reminder acc p now o)
            r1).1) r.application_id = some a2 ∧
        a2.reminder_sent_at = some now) := by
  have hids1 : r1.1.applications.map (fun x => x.id) =
      d.applications.map (fun x => x.id) := by
    rw [hr1]; exact fold1_ids qa now o (d, [])
  have hids1nodup : (r1.1.applications.map (fun x => x.id)).Nodup := by
    rw [hids1]; exact hids
  have hev1 : ReminderEvol d r1.1 now := by
    rw [hr1]; exact fold1_evol qa now o (d, [])
  have hinv1 := fold_reminder1_inv qa now o d (d, []) rfl
    (by intro r hr; simp at hr)
  have htokinv : r1.1.tokens = d.tokens := by rw [hr1]; exact hinv1.1
  have hsent1tok : ∀ r ∈ r1.2, ∃ t ∈ d.tokens, r.token = t.token := by
    rw [hr1]; exact hinv1.2
  obtain ⟨S1, hS1e, hS1sub⟩ := fold1_sent_sub qa now o (d, [])
  have hr1S : r1.2 = S1 := by rw [hr1, hS1e]; simp
  have hqasub : (qa.map (fun x => x.id)).Sublist
      (d.applications.map (fun x => x.id)) := by
    rw [hqa]
    exact (List.filter_sublist d.applications).map (fun x => x.id)
  have hS1nodup : (S1.map (fun r => r.application_id)).Nodup :=
    List.Nodup.sublist (hS1sub.trans hqasub) hids
  have hF4a : ∀ r ∈ S1, ∃ a, get_by_id d r.application_id = some a ∧
      a.reminder_sent_at = none ∧
      a.status = .awaiting_applicant_verification := by
    intro r hr
    have hmemid : r.application_id ∈ qa.map (fun x => x.id) :=
      hS1sub.subset (List.mem_map_of_mem (fun r => r.application_id) hr)
    obtain ⟨a, ha, hai⟩ := List.mem_map.mp hmemid
    rw [hqa] at ha
    obtain ⟨hmem, hst, _, hrem⟩ := qa_mem ha
    refine ⟨a, ?_, hrem, hst⟩
    rw [← hai]
    exact get_by_id_of_mem_nodup hids hmem
  have hM1 : ∀ r ∈ r1.2, ∃ a2, get_by_id r1.1 r.application_id = some a2 ∧
      a2.reminder_sent_at = some now := by
    rw [hr1]
    refine fold1_marked qa now o (d.applications.map (fun x => x.id)) (d, [])
      ?_ rfl (by intro r hr; simp at hr)
    intro a0 ha0
    rw [hqa] at ha0
    exact List.mem_map_of_mem (fun x => x.id) (qa_mem ha0).1
  have hL4 : ∀ p ∈ L, p.1 ∈ r1.1.applications ∧ p.2 ∈ r1.1.tokens ∧
      p.2.application_id = p.1.id ∧
      p.1.status = .awaiting_principal_confirmation ∧
      p.1.reminder_sent_at = none ∧
      p.2.token_type = .principal_confirmation ∧ p.2.used_at = none := by
    intro p hp
    rw [hL] at hp
    exact qb_mem hp
  have hgetp : ∀ p ∈ L, get_by_id r1.1 p.1.id = some p.1 := fun p hp =>
    get_by_id_of_mem_nodup hids1nodup (hL4 p hp).1
  have hF4b : ∀ p ∈ L, get_by_id d p.1.id = some p.1 ∧
      p.1.reminder_sent_at = none := by
    intro p hp
    rcases hev1 p.1.id with h | ⟨a, ha, ha2⟩
    · exact ⟨h.symm.trans (hgetp p hp), (hL4 p hp).2.2.2.2.1⟩
    · have hsp : some p.1 = some { a with reminder_sent_at := some now } :=
        (hgetp p hp).symm.trans ha2
      have hp1 : p.1 = { a with reminder_sent_at := some now } := by
        injection hsp
      have hcontra : p.1.reminder_sent_at = some now := by rw [hp1]
      rw [(hL4 p hp).2.2.2.2.1] at hcontra
      simp at hcontra
  have htok1 : atMostOnePrincipalToken r1.1 := by
    intro i; rw [htokinv]; exact htok i
  have hS2nodup : (L.map (fun p => p.1.id)).Nodup := by
    rw [hL]; exact qb_ids_nodup r1.1 thr now hids1nodup htok1
  have hRsent : (L.foldl
      (fun acc p => process_principal_confirmation_reminder acc p now o) r1).2 =
      r1.2 ++ L.map (fun p => (⟨p.1.id, p.2.token, o p.1.id⟩ : SentReminder)) :=
    fold2_sent L now o r1
  have hmapmap : (L.map
      (fun p => (⟨p.1.id, p.2.token, o p.1.id⟩ : SentReminder))).map
        (fun r => r.application_id) = L.map (fun p => p.1.id) := by
    rw [List.map_map]; rfl
  have hdisj : List.Disjoint (S1.map (fun r => r.application_id))
      (L.map (fun p => p.1.id)) := by
    intro x hx1 hx2
    obtain ⟨r, hr, hrx⟩ := List.mem_map.mp hx1
    obtain ⟨a, hga, _, hst⟩ := hF4a r hr
    obtain ⟨p, hp, hpx⟩ := List.mem_map.mp hx2
    obtain ⟨hgp, _⟩ := hF4b p hp
    rw [hrx] at hga
    rw [hpx] at hgp
    have hap : a = p.1 := by
      have hsp := hga.symm.trans hgp
      injection hsp
    have h1 : a.status = .awaiting_principal_confirmation := by
      rw [hap]; exact (hL4 p hp).2.2.2.1
    rw [hst] at h1
    simp at h1
  refine ⟨?_, ?_, ?_, ?_, ?_, ?_⟩
  · rw [fold2_ids]; exact hids1
  · exact (fold_reminder2_inv L now o d r1 htokinv
      (fun p hp => htokinv ▸ (hL4 p hp).2.1) hsent1tok).1
  · exact reminderEvol_trans hev1 (fold2_evol L now o r1)
  · rw [hRsent, hr1S, List.map_append, hmapmap]
    exact List.Nodup.append hS1nodup hS2nodup hdisj
  · intro r hr
    rw [hRsent, hr1S] at hr
    rcases List.mem_append.mp hr with h1 | h1
    · obtain ⟨a, hga, hrem, _⟩ := hF4a r h1
      exact ⟨a, hga, hrem⟩
    · obtain ⟨p, hp, he⟩ := List.mem_map.mp h1
      obtain ⟨hgp, hrem⟩ := hF4b p hp
      subst he
      exact ⟨p.1, hgp, hrem⟩
  · refine fold2_marked L now o (d.applications.map (fun x => x.id)) r1
      ?_ hids1 hM1
    intro p hp
    rw [← hids1]
    exact List.mem_map_of_mem (fun x => x.id) (hL4 p hp).1

theorem countP_le_one_of_nodup_map {S : List SentReminder}
    (h : (S.map (fun r => r.application_id)).Nodup) (i : Nat) :
    S.countP (fun r => decide (r.application_id = i)) ≤ 1 := by
  induction S with
  | nil => simp
  | cons hd tl ih =>
    simp only [List.map_cons, List.nodup_cons] at h
    by_cases hp : hd.application_id = i
    · have hz : tl.countP (fun r => decide (r.application_id = i)) = 0 := by
        refine List.countP_eq_zero.mpr ?_
        intro r hr hri
        have hri2 : r.application_id = i := of_decide_eq_true hri
        exact h.1 (by rw [← hp] at hri2
                      exact hri2 ▸ List.mem_map_of_mem (fun r => r.application_id) hr)
      simp [List.countP_cons, hp, hz]
    · simp only [List.countP_cons, decide_eq_true_eq, hp, if_false, Nat.add_zero]
      exact ih h.2

/-- C7: `sendVerificationReminders` sends at most one reminder per
application across two successive runs over the same store. Every reminder
sent by the first run targets an application whose `reminder_sent_at` was
NULL and is stamped to `now1` by the end of that run regardless of the email
oracle; the second run, whose eligibility queries filter on
`reminder_sent_at IS NULL`, therefore reminds none of those applications;
and for every application id the total number of reminders handed to the
provider across both runs is at most one. Hypotheses: the store has unique
application ids and at most one live principal-confirmation token per
application (both are database uniqueness invariants). -/
theorem reminders_at_most_once_per_application (db : Db) (now1 now2 : Int)
    (o1 o2 : Nat → Bool)
    (hids : (db.applications.map (fun x => x.id)).Nodup)
    (htok : atMostOnePrincipalToken db) :
    (∀ r ∈ (send_verification_reminders db now1 o1).2,
      ∃ a2, get_by_id (send_verification_reminders db now1 o1).1
          r.application_id = some a2 ∧ a2.reminder_sent_at = some now1) ∧
    (∀ r2 ∈ (send_verification_reminders
        (send_verification_reminders db now1 o1).1 now2 o2).2,
      ∀ r ∈ (send_verification_reminders db now1 o1).2,
        r2.application_id ≠ r.application_id) ∧
    (∀ i, ((send_verification_reminders db now1 o1).2 ++
        (send_verification_reminders
          (send_verification_reminders db now1 o1).1 now2 o2).2).countP
        (fun r => decide (r.application_id = i)) ≤ 1) := by
  have H1 := send_reminders_run_core db now1 (now1 - REMINDER_THRESHOLD_SECONDS)
    o1 _ _ _ rfl rfl rfl hids htok
  have hF2a : ∀ r ∈ (send_verification_reminders db now1 o1).2,
      ∃ a2, get_by_id (send_verification_reminders db now1 o1).1
        r.application_id = some a2 ∧ a2.reminder_sent_at = some now1 :=
    H1.2.2.2.2.2
  have hnd1 : ((send_verification_reminders db now1 o1).2.map
      (fun r => r.application_id)).Nodup := H1.2.2.2.1
  have hids2 : ((send_verification_reminders db now1 o1).1.applications.map
      (fun x => x.id)).Nodup := by
    have he : (send_verification_reminders db now1 o1).1.applications.map
        (fun x => x.id) = db.applications.map (fun x => x.id) := H1.1
    rw [he]; exact hids
  have htokeq : (send_verification_reminders db now1 o1).1.tokens = db.tokens :=
    H1.2.1
  have htok2 : atMostOnePrincipalToken (send_verification_reminders db now1 o1).1 := by
    intro i; rw [htokeq]; exact htok i
  have H2 := send_reminders_run_core (send_verification_reminders db now1 o1).1
    now2 (now2 - REMINDER_THRESHOLD_SECONDS) o2 _ _ _ rfl rfl rfl hids2 htok2
  have hF4b2 : ∀ r ∈ (send_verification_reminders
      (send_verification_reminders db now1 o1).1 now2 o2).2,
      ∃ a, get_by_id (send_verification_reminders db now1 o1).1
        r.application_id = some a ∧ a.reminder_sent_at = none :=
    H2.2.2.2.2.1
  have hnd2 : ((send_verification_reminders
      (send_verification_reminders db now1 o1).1 now2 o2).2.map
      (fun r => r.application_id)).Nodup := H2.2.2.2.1
  have hdisjrun : ∀ r2 ∈ (send_verification_reminders
      (send_verification_reminders db now1 o1).1 now2 o2).2,
      ∀ r ∈ (send_verification_reminders db now1 o1).2,
        r2.application_id ≠ r.application_id := by
    intro r2 hr2 r hr heq
    obtain ⟨a2, hga2, hrem2⟩ := hF2a r hr
    obtain ⟨a, hga, hrem⟩ := hF4b2 r2 hr2
    rw [heq] at hga
    have haa : a = a2 := by injection hga.symm.trans hga2
    rw [haa, hrem2] at hrem
    simp at hrem
  refine ⟨hF2a, hdisjrun, ?_⟩
  intro i
  rw [List.countP_append]
  by_cases h1 : (send_verification_reminders db now1 o1).2.countP
      (fun r => decide (r.application_id = i)) = 0
  · rw [h1, Nat.zero_add]
    exact countP_le_one_of_nodup_map hnd2 i
  · have hex : ∃ r ∈ (send_verification_reminders db now1 o1).2,
        decide (r.application_id = i) = true := by
      by_contra hno
      push_neg at hno
      exact h1 (List.countP_eq_zero.mpr (by
        intro r hr
        simpa using hno r hr))
    obtain ⟨r, hr, hri⟩ := hex
    have hri2 : r.application_id = i := of_decide_eq_true hri
    have hc2z : (send_verification_reminders
        (send_verification_reminders db now1 o1).1 now2 o2).2.countP
        (fun r => decide (r.application_id = i)) = 0 := by
      refine List.countP_eq_zero.mpr ?_
      intro r2 hr2 hp2
      have hi2 : r2.application_id = i := of_decide_eq_true hp2
      exact hdisjrun r2 hr2 r hr (hi2.trans hri2.symm)
    rw [hc2z, Nat.add_zero]
    exact countP_le_one_of_nodup_map hnd1 i

/-- An application awaiting applicant verification, submitted at time 0,
with no reminder sent yet. -/
def c7App : SchoolApplication := { verAppA with id := 21 }

/-- A valid unused applicant-verification token for `c7App`. -/
def c7Tok : VerificationToken :=
  ⟨9, 21, hash_token (.raw 42), .applicant_verification, 500 * 3600, none, 0⟩

/-- The store for the C7 witness. -/
def c7Db : Db := ⟨[c7App], [c7Tok], [], []⟩

/-- Witness for C7 on a concrete store: across two runs of the reminder job
at 300h and 400h the application with id 21 receives at most one reminder. -/
theorem reminders_at_most_once_per_application_witness :
    ((send_verification_reminders c7Db (300 * 3600) (fun _ => true)).2 ++
      (send_verification_reminders
        (send_verification_reminders c7Db (300 * 3600) (fun _ => true)).1
        (400 * 3600) (fun _ => false)).2).countP
      (fun r => decide (r.application_id = 21)) ≤ 1 :=
  (reminders_at_most_once_per_application c7Db (300 * 3600) (400 * 3600)
    (fun _ => true) (fun _ => false) (by decide)
    (by intro i
        exact Nat.le_trans (List.length_filter_le _ c7Db.tokens)
          (by decide))).2.2 21

end EKSMS
